import Mathlib

/-!
# LanTalk server — shallow embedding and verification

This file embeds the session/room/message coordination engine of
`src/server/server.js` (a socket.io chat relay) as executable Lean
definitions and proves or refutes the frozen claims about it.

Modelling conventions:
* JS `Map` objects (`users`, `rooms`, `messages`) become insertion-ordered
  association lists with `mget`/`mset`/`mupd`/`mdel`, matching `Map.get`,
  `Map.set` (replace in place, append if new), optional-chained mutation
  (`messages.get(r)?.push(m)`) and `Map.delete`.
* `generateId()` / `Date.now()` are modelled by a fresh counter `nextId`
  and a clock field `now`; no claim depends on their concrete values.
* Socket emissions are recorded as an ordered list of `Out` values naming
  the target (single socket, a room without the sender, a whole room, or
  everyone); the socket.io room-membership adapter itself is out of scope,
  so targets are recorded symbolically and never resolved to recipients.
* A room's `users` array holds user records; in JS these are aliases of
  the session-registry objects, here they are snapshots taken at push
  time.  Every control-flow read of a member entry in the source uses
  only the immutable fields `socketId` / `username`, and every read of a
  mutable field (`isMuted`, `currentRoom`) in the modelled claims goes
  through the session registry, so the snapshot model agrees with the
  source on all verified behaviour.
-/

namespace LanTalk

/-- `Map.get`: first binding of the key, if any. -/
def mget {α β : Type} [DecidableEq α] : List (α × β) → α → Option β
  | [], _ => none
  | p :: rest, k => if p.1 = k then some p.2 else mget rest k

/-- `Map.set`: replace the binding in place, append if the key is new. -/
def mset {α β : Type} [DecidableEq α] : List (α × β) → α → β → List (α × β)
  | [], k, v => [(k, v)]
  | p :: rest, k, v => if p.1 = k then (k, v) :: rest else p :: mset rest k v

/-- Optional-chained mutation `map.get(k)?.f()`: update the value if the key
is present, otherwise do nothing. -/
def mupd {α β : Type} [DecidableEq α] : List (α × β) → α → (β → β) → List (α × β)
  | [], _, _ => []
  | p :: rest, k, f => if p.1 = k then (p.1, f p.2) :: rest else p :: mupd rest k f

/-- `Map.delete`. -/
def mdel {α β : Type} [DecidableEq α] : List (α × β) → α → List (α × β)
  | [], _ => []
  | p :: rest, k => if p.1 = k then rest else p :: mdel rest k

/-- `Map.has`. -/
def mhas {α β : Type} [DecidableEq α] (l : List (α × β)) (k : α) : Bool :=
  (mget l k).isSome

/-- Message kinds (`type` field of a message object). -/
inductive MsgType : Type where
  | text
  | join
  | leave
  | admin
deriving DecidableEq, Repr

/-- A chat message.  JS objects simply omit absent fields
(`room`, `userIP`, `processedContent`, `isMarkdown`), hence `Option`. -/
structure Message : Type where
  id : Nat
  type : MsgType
  username : String
  content : String
  processedContent : Option String
  isMarkdown : Option Bool
  timestamp : Nat
  room : Option String
  userIP : Option String
deriving DecidableEq, Repr

/-- A connected user record, as stored in the `users` map. -/
structure User : Type where
  id : Nat
  username : String
  socketId : Nat
  joinTime : Nat
  ip : String
  isMuted : Bool
  currentRoom : String
deriving DecidableEq, Repr

/-- A room record, as stored in the `rooms` map. -/
structure Room : Type where
  id : String
  name : String
  users : List User
  created : Nat
  isPublic : Bool
deriving DecidableEq, Repr

/-- Entry of a `user_list` broadcast payload. -/
structure UserInfo : Type where
  id : Nat
  username : String
  joinTime : Nat
  ip : String
  isMuted : Bool
deriving DecidableEq, Repr

/-- Entry of a `room_list` broadcast payload. -/
structure RoomInfo : Type where
  id : String
  name : String
  userCount : Nat
  created : Nat
  isPublic : Bool
deriving DecidableEq, Repr

/-- Payload of an emitted socket.io event. -/
inductive Payload : Type where
  | msg (m : Message)
  | msgHistory (ms : List Message)
  | userList (l : List UserInfo)
  | roomList (l : List RoomInfo)
  | errMsg (text : String)
  | roomJoined (roomId roomName : String) (userCount : Nat)
  | roomCreated (roomId roomName : String)
  | roomDeleted (roomId roomName : String) (reason : Option String)
  | kickedFromRoom (roomId roomName reason : String)
  | userTyping (username : String) (isTyping : Bool)
deriving DecidableEq, Repr

/-- An emission together with its audience:
`toSocket` is `socket.emit` / `io.to(socketId).emit`,
`toRoomExcept` is `socket.to(roomId).emit` (room minus the sender),
`toRoom` is `io.to(roomId).emit`, `toAll` is `io.emit`. -/
inductive Out : Type where
  | toSocket (sid : Nat) (p : Payload)
  | toRoomExcept (roomId : String) (sid : Nat) (p : Payload)
  | toRoom (roomId : String) (p : Payload)
  | toAll (p : Payload)
deriving DecidableEq, Repr

/-- The whole in-memory server state: the four shared stores plus the set of
live transport connections (socket id with its handshake address) and the
id/clock bookkeeping. -/
structure ServerState : Type where
  users : List (Nat × User)
  rooms : List (String × Room)
  messages : List (String × List Message)
  mutedIPs : List String
  sockets : List (Nat × String)
  nextId : Nat
  now : Nat
deriving DecidableEq, Repr

/-- Result of a REST endpoint: HTTP status and the error body, if any. -/
structure RestResp : Type where
  status : Nat
  error : Option String
deriving DecidableEq, Repr

/-- Markdown rendering (`processMarkdown`, built on the external marked and
DOMPurify libraries) is declared out of scope by the spec; it is modelled as
the identity on content.  No claim inspects rendered content. -/
def processMarkdown (content : String) : String := content

/-- Regex-based markdown detection; out of scope like rendering, modelled as
a constant.  No claim inspects this flag. -/
def containsMarkdown (_text : String) : Bool := false

/-- JS `String.prototype.trim`: strip whitespace from both ends.  Written
structurally over the character list so that the kernel can evaluate it
(Lean's own `String.trim` is not kernel-reducible). -/
def jsTrim (s : String) : String :=
  ⟨((s.data.dropWhile Char.isWhitespace).reverse.dropWhile Char.isWhitespace).reverse⟩

/-- JS `x || d` on an optional string: absent and empty are both falsy. -/
def jsOr (x : Option String) (d : String) : String :=
  match x with
  | none => d
  | some v => if v = "" then d else v

/-- JS `array.slice(-n)`: the suffix of the last (at most) `n` elements. -/
def sliceLast {α : Type} (n : Nat) (l : List α) : List α :=
  l.drop (l.length - n)

/-- `messages.get(roomId) || []`. -/
def historyOf (s : ServerState) (roomId : String) : List Message :=
  (mget s.messages roomId).getD []

/-- Payload of `broadcastRoomList()`. -/
def roomListOf (s : ServerState) : List RoomInfo :=
  s.rooms.map (fun p => ⟨p.2.id, p.2.name, p.2.users.length, p.2.created, p.2.isPublic⟩)

/-- `updateUserList(roomId)`: emits the room's user list when the room
exists, otherwise nothing. -/
def updateUserList (s : ServerState) (roomId : String) : List Out :=
  match mget s.rooms roomId with
  | some room =>
      [Out.toRoom roomId (Payload.userList
        (room.users.map (fun u => ⟨u.id, u.username, u.joinTime, u.ip, u.isMuted⟩)))]
  | none => []

/-- `createRoom(roomId, roomName)`: idempotent room creation, also
initialising the room's history. -/
def createRoom (s : ServerState) (roomId roomName : String) : ServerState × Room :=
  match mget s.rooms roomId with
  | some r => (s, r)
  | none =>
      let room : Room := ⟨roomId, roomName, [], s.now, true⟩
      ({ s with rooms := mset s.rooms roomId room,
                messages := mset s.messages roomId [] }, room)

/-- The state at process start: only the immortal `default` room exists. -/
def initialState : ServerState :=
  { users := []
    rooms := [("default", ⟨"default", "公共聊天室", [], 0, true⟩)]
    messages := [("default", [])]
    mutedIPs := []
    sockets := []
    nextId := 0
    now := 0 }

/-- Transport-level `connection` event: records the socket and its
handshake address. -/
def connectHandler (s : ServerState) (sid : Nat) (ip : String) : ServerState :=
  { s with sockets := mset s.sockets sid ip }

/-- The `join` event handler: validates the username, binds a fresh user
(mirroring the address's mute state), ensures the target room exists, adds
membership under a duplicate guard, appends a `join` system message, and
emits the join message, the history suffix, the user list and the room
list.  The handler performs no check that the connection is still unbound. -/
def joinHandler (s : ServerState) (sid : Nat) (username : String)
    (roomIdOpt : Option String) : ServerState × List Out :=
  match mget s.sockets sid with
  | none => (s, [])
  | some clientIP =>
    let roomId := roomIdOpt.getD "default"
    if username.length < 2 ∨ username.length > 20 then
      (s, [Out.toSocket sid (Payload.errMsg "用户名长度应为2-20个字符")])
    else
      let isIPMuted := decide (clientIP ∈ s.mutedIPs)
      let user : User :=
        { id := s.nextId, username := username, socketId := sid, joinTime := s.now
          ip := clientIP, isMuted := isIPMuted, currentRoom := roomId }
      let s1 := { s with users := mset s.users sid user, nextId := s.nextId + 1 }
      let s2 := (createRoom s1 roomId (if roomId = "default" then "公共聊天室" else roomId)).1
      match mget s2.rooms roomId with
      | none => (s2, [])
      | some room =>
        let room' := if room.users.any (fun u => u.socketId == sid) then room
                     else { room with users := room.users ++ [user] }
        let s3 := { s2 with rooms := mset s2.rooms roomId room' }
        let joinMsg : Message :=
          { id := s3.nextId, type := MsgType.join, username := "系统"
            content := username ++ " (IP: " ++ clientIP ++ ") 加入了聊天室" ++
              (if isIPMuted then " [已被禁言]" else "")
            processedContent := none, isMarkdown := none
            timestamp := s3.now, room := some roomId, userIP := some clientIP }
        let s4 := { s3 with messages := mupd s3.messages roomId (fun l => l ++ [joinMsg])
                            nextId := s3.nextId + 1 }
        let noticeMsg : Message :=
          { id := s4.nextId, type := MsgType.admin, username := "系统"
            content := "你的IP已被禁言，无法发送消息和创建房间"
            processedContent := none, isMarkdown := none
            timestamp := s4.now, room := none, userIP := none }
        let s5 := { s4 with nextId := if isIPMuted then s4.nextId + 1 else s4.nextId }
        (s5,
          (if isIPMuted then [Out.toSocket sid (Payload.msg noticeMsg)] else []) ++
          [Out.toSocket sid (Payload.msg joinMsg),
           Out.toSocket sid (Payload.msgHistory (sliceLast 50 (historyOf s4 roomId))),
           Out.toRoomExcept roomId sid (Payload.msg joinMsg)] ++
          updateUserList s4 roomId ++
          [Out.toAll (Payload.roomList (roomListOf s4))])

/-- The `join_room` (room switch) event handler: requires a bound user and
an existing target room; pushes a `leave` message into the old room's
history (without removing the user from the old room's member list), then
updates `currentRoom`, adds membership in the new room under a duplicate
guard, appends a `join` message, delivers the new room's history suffix,
user list and a `room_joined` acknowledgment. -/
def joinRoomHandler (s : ServerState) (sid : Nat) (roomId : String) :
    ServerState × List Out :=
  match mget s.users sid with
  | none => (s, [Out.toSocket sid (Payload.errMsg "请先加入聊天室")])
  | some user =>
    match mget s.rooms roomId with
    | none => (s, [Out.toSocket sid (Payload.errMsg "房间不存在")])
    | some room =>
      let leaveMsg : Message :=
        { id := s.nextId, type := MsgType.leave, username := "系统"
          content := user.username ++ " 离开了房间"
          processedContent := none, isMarkdown := none
          timestamp := s.now, room := some user.currentRoom, userIP := some user.ip }
      let s1 :=
        if user.currentRoom ≠ "" then
          { s with messages := mupd s.messages user.currentRoom (fun l => l ++ [leaveMsg])
                   nextId := s.nextId + 1 }
        else s
      let outs1 : List Out :=
        if user.currentRoom ≠ "" then
          [Out.toRoomExcept user.currentRoom sid (Payload.msg leaveMsg)]
        else []
      let user' := { user with currentRoom := roomId }
      let s2 := { s1 with users := mset s1.users sid user' }
      let room' := if room.users.any (fun u => u.socketId == sid) then room
                   else { room with users := room.users ++ [user'] }
      let s3 := { s2 with rooms := mset s2.rooms roomId room' }
      let joinMsg : Message :=
        { id := s3.nextId, type := MsgType.join, username := "系统"
          content := user.username ++ " 加入了房间"
          processedContent := none, isMarkdown := none
          timestamp := s3.now, room := some roomId, userIP := some user.ip }
      let s4 := { s3 with messages := mupd s3.messages roomId (fun l => l ++ [joinMsg])
                          nextId := s3.nextId + 1 }
      (s4, outs1 ++
        [Out.toSocket sid (Payload.msg joinMsg),
         Out.toRoomExcept roomId sid (Payload.msg joinMsg),
         Out.toSocket sid (Payload.msgHistory (sliceLast 50 (historyOf s4 roomId)))] ++
        updateUserList s4 roomId ++
        [Out.toSocket sid (Payload.roomJoined room'.id room'.name room'.users.length)])

/-- The `send_message` event handler.  Note the destructuring default
`roomId = 'default'`: an omitted room id targets the fixed `default` room,
not the sender's current room.  Appending is optional-chained, so a
message to a non-existent room id is dropped. -/
def sendMessageHandler (s : ServerState) (sid : Nat) (content : String)
    (roomIdOpt : Option String) : ServerState × List Out :=
  let roomId := roomIdOpt.getD "default"
  match mget s.users sid with
  | none => (s, [Out.toSocket sid (Payload.errMsg "请先加入聊天室")])
  | some user =>
    if user.isMuted then
      (s, [Out.toSocket sid (Payload.errMsg "你已被禁言，无法发送消息")])
    else if jsTrim content = "" then (s, [])
    else
      let isMd := containsMarkdown content
      let processed := if isMd then processMarkdown content else content
      let message : Message :=
        { id := s.nextId, type := MsgType.text, username := user.username
          content := jsTrim content, processedContent := some processed
          isMarkdown := some isMd, timestamp := s.now, room := some roomId
          userIP := some user.ip }
      let s1 := { s with messages := mupd s.messages roomId (fun l => l ++ [message])
                         nextId := s.nextId + 1 }
      (s1, [Out.toRoom roomId (Payload.msg message)])

/-- The channel-level `create_room` event handler.  Checks, in source
order: bound user, non-empty id (after trim), user mute flag, address mute,
id collision; then creates the room (no auto-join) and broadcasts the room
list.  There is no 2–20 length check on this path. -/
def createRoomHandler (s : ServerState) (sid : Nat) (roomId : String)
    (roomNameOpt : Option String) : ServerState × List Out :=
  match mget s.users sid with
  | none => (s, [Out.toSocket sid (Payload.errMsg "请先加入聊天室")])
  | some user =>
    if jsTrim roomId = "" then
      (s, [Out.toSocket sid (Payload.errMsg "房间ID不能为空")])
    else if user.isMuted then
      (s, [Out.toSocket sid (Payload.errMsg "你已被禁言，无法创建房间")])
    else if user.ip ∈ s.mutedIPs then
      (s, [Out.toSocket sid (Payload.errMsg "你的IP已被禁言，无法创建房间")])
    else if mhas s.rooms roomId then
      (s, [Out.toSocket sid (Payload.errMsg "房间已存在")])
    else
      let s1 := (createRoom s roomId (jsOr roomNameOpt roomId)).1
      (s1, [Out.toSocket sid (Payload.roomCreated roomId (jsOr roomNameOpt roomId)),
            Out.toAll (Payload.roomList (roomListOf s1))])

/-- The channel-level `delete_room` event handler: self-service deletion
of an existing, non-default, empty room; never evicts. -/
def deleteRoomHandler (s : ServerState) (sid : Nat) (roomId : String) :
    ServerState × List Out :=
  match mget s.users sid with
  | none => (s, [Out.toSocket sid (Payload.errMsg "请先加入聊天室")])
  | some _user =>
    if roomId = "" then
      (s, [Out.toSocket sid (Payload.errMsg "房间ID不能为空")])
    else if roomId = "default" then
      (s, [Out.toSocket sid (Payload.errMsg "不能删除默认房间")])
    else
      match mget s.rooms roomId with
      | none => (s, [Out.toSocket sid (Payload.errMsg "房间不存在")])
      | some room =>
        if 0 < room.users.length then
          (s, [Out.toSocket sid (Payload.errMsg "房间中还有用户，无法删除")])
        else
          let s1 := { s with rooms := mdel s.rooms roomId
                             messages := mdel s.messages roomId }
          (s1, [Out.toAll (Payload.roomList (roomListOf s1)),
                Out.toSocket sid (Payload.roomDeleted roomId room.name none)])

/-- The `typing` event handler: transient relay, never persisted. -/
def typingHandler (s : ServerState) (sid : Nat) (isTyping : Bool)
    (roomIdOpt : Option String) : ServerState × List Out :=
  let roomId := roomIdOpt.getD "default"
  match mget s.users sid with
  | none => (s, [])
  | some user =>
    if user.isMuted then (s, [])
    else (s, [Out.toRoomExcept roomId sid (Payload.userTyping user.username isTyping)])

/-- The `get_rooms` event handler: re-broadcasts the room list to everyone. -/
def getRoomsHandler (s : ServerState) (_sid : Nat) : ServerState × List Out :=
  (s, [Out.toAll (Payload.roomList (roomListOf s))])

/-- First-occurrence removal, as `findIndex` + `splice(i, 1)`. -/
def removeFirstBySid (sid : Nat) : List User → List User
  | [] => []
  | u :: rest => if u.socketId = sid then rest else u :: removeFirstBySid sid rest

/-- The transport `disconnect` handler: removes the user's entry from every
room's member list, appends and emits a `leave` message (and a refreshed
user list) only for the room that is the user's `currentRoom` — and only
when the user's entry is actually found there — then unbinds the user and
broadcasts the room list. -/
def disconnectHandler (s : ServerState) (sid : Nat) : ServerState × List Out :=
  let s0 := { s with sockets := mdel s.sockets sid }
  match mget s0.users sid with
  | none => (s0, [])
  | some user =>
    let newRooms := s0.rooms.map
      (fun p => (p.1, { p.2 with users := removeFirstBySid sid p.2.users }))
    let leaveMsg : Message :=
      { id := s0.nextId, type := MsgType.leave, username := "系统"
        content := user.username ++ " (IP: " ++ user.ip ++ ") 离开了聊天室"
        processedContent := none, isMarkdown := none
        timestamp := s0.now, room := some user.currentRoom, userIP := some user.ip }
    let inCurrent :=
      match mget s0.rooms user.currentRoom with
      | some room => room.users.any (fun u => u.socketId == sid)
      | none => false
    let s1 :=
      if inCurrent then
        { s0 with rooms := newRooms
                  messages := mupd s0.messages user.currentRoom (fun l => l ++ [leaveMsg])
                  nextId := s0.nextId + 1 }
      else { s0 with rooms := newRooms }
    let s2 := { s1 with users := mdel s1.users sid }
    (s2,
      (if inCurrent then
        [Out.toRoomExcept user.currentRoom sid (Payload.msg leaveMsg)] ++
        updateUserList s1 user.currentRoom
       else []) ++
      [Out.toAll (Payload.roomList (roomListOf s2))])

/-- `POST /api/mute-ip`: adds the address to the moderation set and sweeps
the mute flag onto every connected user with that address. -/
def restMuteIP (s : ServerState) (ip : String) : ServerState × RestResp :=
  if ip = "" then (s, ⟨400, some "IP地址不能为空"⟩)
  else
    ({ s with
        mutedIPs := if ip ∈ s.mutedIPs then s.mutedIPs else s.mutedIPs ++ [ip]
        users := s.users.map
          (fun p => if p.2.ip = ip then (p.1, { p.2 with isMuted := true }) else p) },
     ⟨200, none⟩)

/-- `POST /api/unmute-ip`: removes the address and clears the flag on every
connected user with that address. -/
def restUnmuteIP (s : ServerState) (ip : String) : ServerState × RestResp :=
  if ip = "" then (s, ⟨400, some "IP地址不能为空"⟩)
  else
    ({ s with
        mutedIPs := s.mutedIPs.filter (fun x => x ≠ ip)
        users := s.users.map
          (fun p => if p.2.ip = ip then (p.1, { p.2 with isMuted := false }) else p) },
     ⟨200, none⟩)

/-- `POST /api/broadcast`: appends one admin message to every room's
history and emits it to everyone. -/
def restBroadcast (s : ServerState) (msgText : String) :
    ServerState × List Out × RestResp :=
  if msgText = "" then (s, [], ⟨400, some "消息不能为空"⟩)
  else
    let adminMsg : Message :=
      { id := s.nextId, type := MsgType.admin, username := "管理员"
        content := msgText, processedContent := none, isMarkdown := none
        timestamp := s.now, room := none, userIP := none }
    let s1 := { s with
        messages := s.rooms.foldl (fun ms p => mupd ms p.1 (fun l => l ++ [adminMsg])) s.messages
        nextId := s.nextId + 1 }
    (s1, [Out.toAll (Payload.msg adminMsg)], ⟨200, none⟩)

/-- `POST /api/rooms`: REST room creation; the only path with the 2–20
length check; an admin token bypasses the mute checks. -/
def restCreateRoom (s : ServerState) (clientIP roomId : String)
    (roomNameOpt adminToken : Option String) : ServerState × List Out × RestResp :=
  if roomId = "" then (s, [], ⟨400, some "房间ID不能为空"⟩)
  else if roomId.length < 2 ∨ roomId.length > 20 then
    (s, [], ⟨400, some "房间ID长度应为2-20个字符"⟩)
  else if mhas s.rooms roomId then (s, [], ⟨400, some "房间已存在"⟩)
  else
    let isAdminRequest := adminToken = some "admin123"
    if ¬ isAdminRequest ∧ clientIP ∈ s.mutedIPs then
      (s, [], ⟨403, some "你的IP已被禁言，无法创建房间"⟩)
    else if ¬ isAdminRequest ∧ s.users.any (fun p => p.2.ip == clientIP && p.2.isMuted) then
      (s, [], ⟨403, some "你已被禁言，无法创建房间"⟩)
    else
      let s1 := (createRoom s roomId (jsOr roomNameOpt roomId)).1
      (s1, [Out.toAll (Payload.roomList (roomListOf s1))], ⟨200, none⟩)

/-- One iteration of the forced-eviction loop of
`DELETE /api/rooms/:roomId?force=true`: sends the kick notice and
`room_deleted` to the member; if the member's socket is still connected,
points their session at `default`, replays the default history suffix and
appends/emits a relocation `join` message — but never pushes the member
into the default room's member list. -/
def evictStep (roomId roomName : String) (s : ServerState) (u : User) :
    ServerState × List Out :=
  let kickMsg : Message :=
    { id := s.nextId, type := MsgType.admin, username := "系统"
      content := "房间 \"" ++ roomName ++ "\" 已被管理员删除，您已被移出房间"
      processedContent := none, isMarkdown := none, timestamp := s.now
      room := none, userIP := none }
  let s1 := { s with nextId := s.nextId + 1 }
  let outs0 := [Out.toSocket u.socketId (Payload.msg kickMsg),
                Out.toSocket u.socketId (Payload.roomDeleted roomId roomName
                  (some "房间已被管理员删除"))]
  if mhas s1.sockets u.socketId then
    let repoint := fun (v : User) => { v with currentRoom := "default" }
    let s2 := { s1 with users := mupd s1.users u.socketId repoint }
    let histOut := Out.toSocket u.socketId
      (Payload.msgHistory (sliceLast 50 (historyOf s2 "default")))
    let joinMsg : Message :=
      { id := s2.nextId, type := MsgType.join, username := "系统"
        content := u.username ++ " 被移入默认房间"
        processedContent := none, isMarkdown := none, timestamp := s2.now
        room := some "default", userIP := none }
    let s3 := { s2 with messages := mupd s2.messages "default" (fun l => l ++ [joinMsg])
                        nextId := s2.nextId + 1 }
    (s3, outs0 ++ [histOut, Out.toSocket u.socketId (Payload.msg joinMsg),
                   Out.toRoomExcept "default" u.socketId (Payload.msg joinMsg)])
  else (s1, outs0)

/-- The `room.users.forEach` loop of the forced deletion path. -/
def evictUsers (roomId roomName : String) : ServerState → List User →
    ServerState × List Out
  | s, [] => (s, [])
  | s, u :: rest =>
    let r1 := evictStep roomId roomName s u
    let r2 := evictUsers roomId roomName r1.1 rest
    (r2.1, r1.2 ++ r2.2)

/-- `DELETE /api/rooms/:roomId`: rejects deleting `default` or a missing
room; rejects a populated room unless `force`; with `force`, runs the
eviction loop and then discards the room and its history. -/
def restDeleteRoom (s : ServerState) (roomId : String) (force : Bool) :
    ServerState × List Out × RestResp :=
  if roomId = "" then (s, [], ⟨400, some "房间ID不能为空"⟩)
  else if roomId = "default" then (s, [], ⟨400, some "不能删除默认房间"⟩)
  else
    match mget s.rooms roomId with
    | none => (s, [], ⟨404, some "房间不存在"⟩)
    | some room =>
      if 0 < room.users.length ∧ force = false then
        (s, [], ⟨400, some "房间中还有用户，无法删除"⟩)
      else
        let r1 :=
          if 0 < room.users.length ∧ force = true then
            evictUsers roomId room.name s room.users
          else (s, [])
        let s2 := { r1.1 with rooms := mdel r1.1.rooms roomId
                              messages := mdel r1.1.messages roomId }
        (s2, r1.2 ++ [Out.toAll (Payload.roomList (roomListOf s2))], ⟨200, none⟩)

/-- One iteration of the `POST /api/rooms/:roomId/kick-users` loop:
kick notice, `kicked_from_room`, and — when the socket is connected —
session repointing at `default` plus a history replay; no join message. -/
def kickStep (roomId roomName : String) (s : ServerState) (u : User) :
    ServerState × List Out :=
  let kickMsg : Message :=
    { id := s.nextId, type := MsgType.admin, username := "系统"
      content := "您已被管理员从房间 \"" ++ roomName ++ "\" 踢出"
      processedContent := none, isMarkdown := none, timestamp := s.now
      room := none, userIP := none }
  let s1 := { s with nextId := s.nextId + 1 }
  let outs0 := [Out.toSocket u.socketId (Payload.msg kickMsg),
                Out.toSocket u.socketId (Payload.kickedFromRoom roomId roomName "管理员操作")]
  if mhas s1.sockets u.socketId then
    let repoint := fun (v : User) => { v with currentRoom := "default" }
    let s2 := { s1 with users := mupd s1.users u.socketId repoint }
    (s2, outs0 ++ [Out.toSocket u.socketId
      (Payload.msgHistory (sliceLast 50 (historyOf s2 "default")))])
  else (s1, outs0)

/-- The member loop of the kick-users endpoint. -/
def kickLoop (roomId roomName : String) : ServerState → List User →
    ServerState × List Out
  | s, [] => (s, [])
  | s, u :: rest =>
    let r1 := kickStep roomId roomName s u
    let r2 := kickLoop roomId roomName r1.1 rest
    (r2.1, r1.2 ++ r2.2)

/-- `POST /api/rooms/:roomId/kick-users`. -/
def restKickUsers (s : ServerState) (roomId : String) :
    ServerState × List Out × RestResp :=
  if roomId = "" then (s, [], ⟨400, some "房间ID不能为空"⟩)
  else
    match mget s.rooms roomId with
    | none => (s, [], ⟨404, some "房间不存在"⟩)
    | some room =>
      if room.users.length = 0 then (s, [], ⟨400, some "房间中没有用户"⟩)
      else
        let r1 := kickLoop roomId room.name s room.users
        let s2 := { r1.1 with rooms := mupd r1.1.rooms roomId (fun r => { r with users := [] }) }
        (s2, r1.2 ++ updateUserList s2 "default" ++
             [Out.toAll (Payload.roomList (roomListOf s2))], ⟨200, none⟩)

/-- One event-handler step of the server: any channel event on any socket,
any administrative REST mutation, or a transport connect/disconnect.
`typing` and `get_rooms` never mutate state but are included for
completeness. -/
inductive Step : ServerState → ServerState → Prop where
  | connectEv (s : ServerState) (sid : Nat) (ip : String) :
      Step s (connectHandler s sid ip)
  | joinEv (s : ServerState) (sid : Nat) (username : String) (roomIdOpt : Option String) :
      Step s (joinHandler s sid username roomIdOpt).1
  | joinRoomEv (s : ServerState) (sid : Nat) (roomId : String) :
      Step s (joinRoomHandler s sid roomId).1
  | sendMessageEv (s : ServerState) (sid : Nat) (content : String) (roomIdOpt : Option String) :
      Step s (sendMessageHandler s sid content roomIdOpt).1
  | createRoomEv (s : ServerState) (sid : Nat) (roomId : String) (roomNameOpt : Option String) :
      Step s (createRoomHandler s sid roomId roomNameOpt).1
  | deleteRoomEv (s : ServerState) (sid : Nat) (roomId : String) :
      Step s (deleteRoomHandler s sid roomId).1
  | typingEv (s : ServerState) (sid : Nat) (isTyping : Bool) (roomIdOpt : Option String) :
      Step s (typingHandler s sid isTyping roomIdOpt).1
  | getRoomsEv (s : ServerState) (sid : Nat) :
      Step s (getRoomsHandler s sid).1
  | disconnectEv (s : ServerState) (sid : Nat) :
      Step s (disconnectHandler s sid).1
  | restMuteEv (s : ServerState) (ip : String) :
      Step s (restMuteIP s ip).1
  | restUnmuteEv (s : ServerState) (ip : String) :
      Step s (restUnmuteIP s ip).1
  | restBroadcastEv (s : ServerState) (msgText : String) :
      Step s (restBroadcast s msgText).1
  | restCreateEv (s : ServerState) (clientIP roomId : String)
      (roomNameOpt adminToken : Option String) :
      Step s (restCreateRoom s clientIP roomId roomNameOpt adminToken).1
  | restDeleteEv (s : ServerState) (roomId : String) (force : Bool) :
      Step s (restDeleteRoom s roomId force).1
  | restKickEv (s : ServerState) (roomId : String) :
      Step s (restKickUsers s roomId).1

/-- States the running server can actually be in: everything generated from
the boot state by handler steps. -/
inductive Reachable : ServerState → Prop where
  | init : Reachable initialState
  | step {s s' : ServerState} : Reachable s → Step s s' → Reachable s'

/-- A member list holds pairwise-distinct connection ids, i.e. at most one
entry per connection. -/
def roomOnce (r : Room) : Prop :=
  r.users.Pairwise (fun a b => a.socketId ≠ b.socketId)

/-- Every room's member list holds at most one entry per connection. -/
def memberOnce (s : ServerState) : Prop := ∀ p ∈ s.rooms, roomOnce p.2

/-- The session registry maps a socket id to a record carrying that same
socket id. -/
def usersKeyed (s : ServerState) : Prop :=
  ∀ p ∈ s.users, (p : Nat × User).2.socketId = p.1

/-- The fast-check mirror: a connected user's `isMuted` flag agrees with
membership of their address in the moderation registry. -/
def muteConsistent (s : ServerState) : Prop :=
  ∀ p ∈ s.users, ((p : Nat × User).2.isMuted = true ↔ p.2.ip ∈ s.mutedIPs)

/-- The conjunction of the data-model invariants maintained by every
handler. -/
def Inv (s : ServerState) : Prop :=
  usersKeyed s ∧ muteConsistent s ∧ memberOnce s

/- Concrete scenario states used to witness or refute individual claims.
Each chain starts from the boot state and applies real handlers only. -/

def c1s1 : ServerState := connectHandler initialState 1 "10.0.0.1"

def c1s2 : ServerState := (joinHandler c1s1 1 "alice" none).1

def c1s3 : ServerState := (createRoomHandler c1s2 1 "team" none).1

def c1s4 : ServerState := (joinRoomHandler c1s3 1 "team").1

def c2s1 : ServerState := connectHandler initialState 1 "10.0.0.1"

def c2s2 : ServerState := (joinHandler c2s1 1 "alice" (some "team")).1

def c2s3 : ServerState := (restDeleteRoom c2s2 "team" true).1

def c3s1 : ServerState := connectHandler initialState 1 "10.0.0.1"

def c3s2 : ServerState := (joinHandler c3s1 1 "alice" none).1

def c3s3 : ServerState := (restMuteIP c3s2 "10.0.0.1").1

def c4s1 : ServerState := connectHandler initialState 1 "10.0.0.1"

def c4s2 : ServerState := (joinHandler c4s1 1 "alice" none).1

def c4s3 : ServerState := (createRoomHandler c4s2 1 "team" none).1

def c5s1 : ServerState := connectHandler initialState 1 "10.0.0.1"

def c5s2 : ServerState := (joinHandler c5s1 1 "alice" (some "team")).1

def c6s1 : ServerState := connectHandler initialState 1 "10.0.0.1"

def c6s2 : ServerState := (joinHandler c6s1 1 "alice" none).1

def c7s1 : ServerState := connectHandler initialState 1 "10.0.0.1"

def c7s2 : ServerState := (joinHandler c7s1 1 "alice" (some "team")).1

def c8s1 : ServerState := connectHandler initialState 1 "10.0.0.1"

def c8s2 : ServerState := (joinHandler c8s1 1 "alice" none).1

def c9s1 : ServerState := connectHandler initialState 1 "10.0.0.1"

def c9s2 : ServerState := (joinHandler c9s1 1 "alice" none).1

def c10s1 : ServerState := connectHandler initialState 1 "10.0.0.1"

def c10s2 : ServerState := (joinHandler c10s1 1 "alice" none).1

/-! ## Association-list and list lemmas -/

theorem mget_mem {α β : Type} [DecidableEq α] {l : List (α × β)} {k : α} {v : β}
    (h : mget l k = some v) : (k, v) ∈ l := by
  induction l with
  | nil => simp [mget] at h
  | cons p rest ih =>
    rw [mget] at h
    by_cases hk : p.1 = k
    · rw [if_pos hk] at h
      have hv : p.2 = v := by injection h
      have hp : (k, v) = p := by rw [← hk, ← hv]
      rw [hp]
      exact List.mem_cons_self p rest
    · rw [if_neg hk] at h
      exact List.mem_cons_of_mem p (ih h)

theorem mem_mset {α β : Type} [DecidableEq α] {l : List (α × β)} {k : α} {v : β}
    {p : α × β} (h : p ∈ mset l k v) : p = (k, v) ∨ p ∈ l := by
  induction l with
  | nil => simp [mset] at h; exact Or.inl h
  | cons q rest ih =>
    rw [mset] at h
    by_cases hk : q.1 = k
    · rw [if_pos hk] at h
      rcases List.mem_cons.mp h with h1 | h1
      · exact Or.inl h1
      · exact Or.inr (List.mem_cons_of_mem q h1)
    · rw [if_neg hk] at h
      rcases List.mem_cons.mp h with h1 | h1
      · exact Or.inr (h1 ▸ List.mem_cons_self q rest)
      · rcases ih h1 with h2 | h2
        · exact Or.inl h2
        · exact Or.inr (List.mem_cons_of_mem q h2)

theorem mem_mupd {α β : Type} [DecidableEq α] {l : List (α × β)} {k : α} {f : β → β}
    {p : α × β} (h : p ∈ mupd l k f) :
    p ∈ l ∨ ∃ q, q ∈ l ∧ q.1 = k ∧ p = (q.1, f q.2) := by
  induction l with
  | nil => simp [mupd] at h
  | cons q rest ih =>
    rw [mupd] at h
    by_cases hk : q.1 = k
    · rw [if_pos hk] at h
      rcases List.mem_cons.mp h with h1 | h1
      · exact Or.inr ⟨q, List.mem_cons_self q rest, hk, h1⟩
      · exact Or.inl (List.mem_cons_of_mem q h1)
    · rw [if_neg hk] at h
      rcases List.mem_cons.mp h with h1 | h1
      · exact Or.inl (h1 ▸ List.mem_cons_self q rest)
      · rcases ih h1 with h2 | h2
        · exact Or.inl (List.mem_cons_of_mem q h2)
        · obtain ⟨r, hr, hrk, hp⟩ := h2
          exact Or.inr ⟨r, List.mem_cons_of_mem q hr, hrk, hp⟩

theorem mem_mdel {α β : Type} [DecidableEq α] {l : List (α × β)} {k : α}
    {p : α × β} (h : p ∈ mdel l k) : p ∈ l := by
  induction l with
  | nil => simp [mdel] at h
  | cons q rest ih =>
    rw [mdel] at h
    by_cases hk : q.1 = k
    · rw [if_pos hk] at h
      exact List.mem_cons_of_mem q h
    · rw [if_neg hk] at h
      rcases List.mem_cons.mp h with h1 | h1
      · exact h1 ▸ List.mem_cons_self q rest
      · exact List.mem_cons_of_mem q (ih h1)

theorem mget_mset_self {α β : Type} [DecidableEq α] (l : List (α × β)) (k : α) (v : β) :
    mget (mset l k v) k = some v := by
  induction l with
  | nil => simp [mset, mget]
  | cons q rest ih =>
    by_cases hk : q.1 = k
    · simp [mset, hk, mget]
    · simp [mset, hk, mget, ih]

theorem mget_mset_ne {α β : Type} [DecidableEq α] (l : List (α × β)) (k k' : α) (v : β)
    (h : k' ≠ k) : mget (mset l k v) k' = mget l k' := by
  induction l with
  | nil => simp [mset, mget, Ne.symm h]
  | cons q rest ih =>
    by_cases hk : q.1 = k
    · simp [mset, hk, mget, Ne.symm h, hk.symm ▸ (Ne.symm h : k ≠ k')]
    · simp [mset, hk, mget, ih]

theorem mget_mupd_self {α β : Type} [DecidableEq α] (l : List (α × β)) (k : α) (f : β → β) :
    mget (mupd l k f) k = (mget l k).map f := by
  induction l with
  | nil => simp [mupd, mget]
  | cons q rest ih =>
    by_cases hk : q.1 = k
    · simp [mupd, hk, mget]
    · simp [mupd, hk, mget, ih]

theorem mget_mupd_ne {α β : Type} [DecidableEq α] (l : List (α × β)) (k k' : α) (f : β → β)
    (h : k' ≠ k) : mget (mupd l k f) k' = mget l k' := by
  induction l with
  | nil => simp [mupd]
  | cons q rest ih =>
    by_cases hk : q.1 = k
    · simp [mupd, hk, mget, Ne.symm h]
    · simp [mupd, hk, mget, ih]

theorem mget_mdel_ne {α β : Type} [DecidableEq α] (l : List (α × β)) (k k' : α)
    (h : k' ≠ k) : mget (mdel l k) k' = mget l k' := by
  induction l with
  | nil => simp [mdel]
  | cons q rest ih =>
    by_cases hk : q.1 = k
    · have hq : ¬ q.1 = k' := by rw [hk]; exact Ne.symm h
      rw [mdel, if_pos hk, mget, if_neg hq]
    · simp [mdel, hk, mget, ih]

theorem removeFirstBySid_sublist (sid : Nat) (l : List User) :
    List.Sublist (removeFirstBySid sid l) l := by
  induction l with
  | nil => simp [removeFirstBySid]
  | cons u rest ih =>
    rw [removeFirstBySid]
    by_cases h : u.socketId = sid
    · rw [if_pos h]
      exact List.sublist_cons_self u rest
    · rw [if_neg h]
      exact ih.cons₂ u

theorem roomOnce_sublist {l l' : List User}
    (hsub : List.Sublist l' l)
    (h : l.Pairwise (fun a b => a.socketId ≠ b.socketId)) :
    l'.Pairwise (fun a b => a.socketId ≠ b.socketId) :=
  h.sublist hsub

theorem roomOnce_push {l : List User} {u : User} {sid : Nat}
    (hu : u.socketId = sid)
    (h1 : l.Pairwise (fun a b => a.socketId ≠ b.socketId))
    (h2 : l.any (fun v => v.socketId == sid) = false) :
    (l ++ [u]).Pairwise (fun a b => a.socketId ≠ b.socketId) := by
  rw [List.pairwise_append]
  refine ⟨h1, List.pairwise_singleton _ _, ?_⟩
  intro a ha b hb
  have hb' : b = u := by simpa using hb
  subst hb'
  intro hcontra
  have h3 := List.any_eq_false.mp h2 a ha
  apply h3
  rw [beq_iff_eq, hcontra, hu]

theorem sliceLast_suffix {α : Type} (n : Nat) (l : List α) : sliceLast n l <:+ l :=
  List.drop_suffix _ _

theorem sliceLast_length {α : Type} (n : Nat) (l : List α) :
    (sliceLast n l).length = min n l.length := by
  simp only [sliceLast, List.length_drop]
  omega

theorem sliceLast_head_dropped {α : Type} {l : List α} {m : α}
    (h50 : 50 < l.length) (hnd : l.Nodup) (hm : l.head? = some m) :
    m ∉ sliceLast 50 l := by
  cases l with
  | nil => simp at hm
  | cons a tail =>
    have ham : a = m := by simpa using hm
    subst ham
    intro hmem
    unfold sliceLast at hmem
    obtain ⟨k, hk⟩ : ∃ k, (a :: tail).length - 50 = k + 1 := by
      refine ⟨(a :: tail).length - 51, ?_⟩
      simp only [List.length_cons] at h50 ⊢
      omega
    rw [hk, List.drop_succ_cons] at hmem
    have hmem2 : a ∈ tail := List.mem_of_mem_drop hmem
    exact (List.nodup_cons.mp hnd).1 hmem2

/-! ## Invariant preservation -/

theorem inv_of_core {s s' : ServerState}
    (hu : s'.users = s.users) (hr : s'.rooms = s.rooms) (hm : s'.mutedIPs = s.mutedIPs)
    (h : Inv s) : Inv s' := by
  obtain ⟨h1, h2, h3⟩ := h
  refine ⟨?_, ?_, ?_⟩
  · intro p hp
    exact h1 p (hu ▸ hp)
  · intro p hp
    rw [hm]
    exact h2 p (hu ▸ hp)
  · intro p hp
    exact h3 p (hr ▸ hp)

theorem inv_connect (s : ServerState) (sid : Nat) (ip : String) (h : Inv s) :
    Inv (connectHandler s sid ip) :=
  inv_of_core rfl rfl rfl h

theorem inv_sendMessage (s : ServerState) (sid : Nat) (c : String) (r : Option String)
    (h : Inv s) : Inv (sendMessageHandler s sid c r).1 := by
  unfold sendMessageHandler
  cases mget s.users sid with
  | none => exact h
  | some u =>
    by_cases h1 : u.isMuted
    · simp only [h1, if_true]
      exact h
    · by_cases h2 : jsTrim c = ""
      · simp only [h1, h2, if_false, if_true]
        exact h
      · simp only [h1, h2, if_false]
        exact inv_of_core rfl rfl rfl h

theorem inv_typing (s : ServerState) (sid : Nat) (b : Bool) (r : Option String)
    (h : Inv s) : Inv (typingHandler s sid b r).1 := by
  unfold typingHandler
  cases mget s.users sid with
  | none => exact h
  | some u =>
    by_cases h1 : u.isMuted
    · simp only [h1, if_true]
      exact h
    · simp only [h1, if_false]
      exact h

theorem inv_getRooms (s : ServerState) (sid : Nat) (h : Inv s) :
    Inv (getRoomsHandler s sid).1 := h

theorem inv_restBroadcast (s : ServerState) (t : String) (h : Inv s) :
    Inv (restBroadcast s t).1 := by
  unfold restBroadcast
  by_cases h1 : t = ""
  · simp only [h1, if_true]
    exact h
  · simp only [h1, if_false]
    exact inv_of_core rfl rfl rfl h

theorem createRoom_users (s : ServerState) (rid rn : String) :
    (createRoom s rid rn).1.users = s.users := by
  unfold createRoom
  split <;> rfl

theorem createRoom_mutedIPs (s : ServerState) (rid rn : String) :
    (createRoom s rid rn).1.mutedIPs = s.mutedIPs := by
  unfold createRoom
  split <;> rfl

theorem createRoom_sockets (s : ServerState) (rid rn : String) :
    (createRoom s rid rn).1.sockets = s.sockets := by
  unfold createRoom
  split <;> rfl

theorem createRoom_rooms_mem {s : ServerState} {rid rn : String} {p : String × Room}
    (hp : p ∈ (createRoom s rid rn).1.rooms) : p ∈ s.rooms ∨ p.2.users = [] := by
  unfold createRoom at hp
  split at hp
  · exact Or.inl hp
  · rcases mem_mset hp with h1 | h1
    · right
      rw [h1]
    · exact Or.inl h1

theorem inv_join (s : ServerState) (sid : Nat) (un : String) (rid : Option String)
    (h : Inv s) : Inv (joinHandler s sid un rid).1 := by
  obtain ⟨hk, hm, hr⟩ := h
  simp only [joinHandler]
  split
  · exact ⟨hk, hm, hr⟩
  · rename_i ip hip
    split
    · exact ⟨hk, hm, hr⟩
    · split
      · refine ⟨?_, ?_, ?_⟩
        · intro p hp
          dsimp only at hp
          rw [createRoom_users] at hp
          rcases mem_mset hp with h1 | h1
          · rw [h1]
          · exact hk p h1
        · intro p hp
          dsimp only at hp ⊢
          rw [createRoom_users] at hp
          rw [createRoom_mutedIPs]
          rcases mem_mset hp with h1 | h1
          · rw [h1]
            simp
          · exact hm p h1
        · intro p hp
          dsimp only at hp
          rcases createRoom_rooms_mem hp with h1 | h1
          · exact hr p h1
          · unfold roomOnce
            rw [h1]
            exact List.Pairwise.nil
      · rename_i room hroom
        have hOnceRoom : roomOnce room := by
          rcases createRoom_rooms_mem (mget_mem hroom) with hA | hA
          · exact hr _ hA
          · unfold roomOnce
            rw [hA]
            exact List.Pairwise.nil
        refine ⟨?_, ?_, ?_⟩
        · intro p hp
          dsimp only at hp
          rw [createRoom_users] at hp
          rcases mem_mset hp with h1 | h1
          · rw [h1]
          · exact hk p h1
        · intro p hp
          dsimp only at hp ⊢
          rw [createRoom_users] at hp
          rw [createRoom_mutedIPs]
          rcases mem_mset hp with h1 | h1
          · rw [h1]
            simp
          · exact hm p h1
        · intro p hp
          dsimp only at hp
          rcases mem_mset hp with h1 | h1
          · by_cases hany : (room.users.any fun u => u.socketId == sid) = true
            · rw [if_pos hany] at h1
              rw [h1]
              exact hOnceRoom
            · rw [if_neg hany] at h1
              rw [h1]
              exact roomOnce_push rfl hOnceRoom (by simpa using hany)
          · rcases createRoom_rooms_mem h1 with h2 | h2
            · exact hr p h2
            · unfold roomOnce
              rw [h2]
              exact List.Pairwise.nil

theorem inv_createRoomHandler (s : ServerState) (sid : Nat) (rid : String)
    (rn : Option String) (h : Inv s) : Inv (createRoomHandler s sid rid rn).1 := by
  obtain ⟨hk, hm, hr⟩ := h
  simp only [createRoomHandler]
  split
  · exact ⟨hk, hm, hr⟩
  · split
    · exact ⟨hk, hm, hr⟩
    · split
      · exact ⟨hk, hm, hr⟩
      · split
        · exact ⟨hk, hm, hr⟩
        · split
          · exact ⟨hk, hm, hr⟩
          · refine ⟨?_, ?_, ?_⟩
            · intro p hp
              dsimp only at hp
              rw [createRoom_users] at hp
              exact hk p hp
            · intro p hp
              dsimp only at hp ⊢
              rw [createRoom_users] at hp
              rw [createRoom_mutedIPs]
              exact hm p hp
            · intro p hp
              dsimp only at hp
              rcases createRoom_rooms_mem hp with h1 | h1
              · exact hr p h1
              · unfold roomOnce
                rw [h1]
                exact List.Pairwise.nil

theorem inv_restCreateRoom (s : ServerState) (ip rid : String)
    (rn tok : Option String) (h : Inv s) : Inv (restCreateRoom s ip rid rn tok).1 := by
  obtain ⟨hk, hm, hr⟩ := h
  simp only [restCreateRoom]
  split
  · exact ⟨hk, hm, hr⟩
  · split
    · exact ⟨hk, hm, hr⟩
    · split
      · exact ⟨hk, hm, hr⟩
      · split
        · exact ⟨hk, hm, hr⟩
        · split
          · exact ⟨hk, hm, hr⟩
          · refine ⟨?_, ?_, ?_⟩
            · intro p hp
              dsimp only at hp
              rw [createRoom_users] at hp
              exact hk p hp
            · intro p hp
              dsimp only at hp ⊢
              rw [createRoom_users] at hp
              rw [createRoom_mutedIPs]
              exact hm p hp
            · intro p hp
              dsimp only at hp
              rcases createRoom_rooms_mem hp with h1 | h1
              · exact hr p h1
              · unfold roomOnce
                rw [h1]
                exact List.Pairwise.nil

theorem inv_deleteRoom (s : ServerState) (sid : Nat) (rid : String) (h : Inv s) :
    Inv (deleteRoomHandler s sid rid).1 := by
  obtain ⟨hk, hm, hr⟩ := h
  simp only [deleteRoomHandler]
  split
  · exact ⟨hk, hm, hr⟩
  · split
    · exact ⟨hk, hm, hr⟩
    · split
      · exact ⟨hk, hm, hr⟩
      · split
        · exact ⟨hk, hm, hr⟩
        · split
          · exact ⟨hk, hm, hr⟩
          · refine ⟨hk, hm, ?_⟩
            intro p hp
            exact hr p (mem_mdel hp)

theorem inv_restMuteIP (s : ServerState) (ip : String) (h : Inv s) :
    Inv (restMuteIP s ip).1 := by
  obtain ⟨hk, hm, hr⟩ := h
  simp only [restMuteIP]
  split
  · exact ⟨hk, hm, hr⟩
  · refine ⟨?_, ?_, ?_⟩
    · intro p hp
      rcases List.mem_map.mp hp with ⟨q, hq, rfl⟩
      by_cases hip : q.2.ip = ip
      · simp only [hip, if_true]
        exact hk q hq
      · simp only [hip, if_false]
        exact hk q hq
    · intro p hp
      rcases List.mem_map.mp hp with ⟨q, hq, rfl⟩
      by_cases hip : q.2.ip = ip
      · by_cases hold : ip ∈ s.mutedIPs
        · simp [hip, hold]
        · simp [hip, hold]
      · have base := hm q hq
        by_cases hold : ip ∈ s.mutedIPs
        · simp only [hip, if_false]
          simpa [hold] using base
        · simp only [hip, if_false]
          simpa [hold, hip] using base
    · intro p hp
      exact hr p hp

theorem inv_restUnmuteIP (s : ServerState) (ip : String) (h : Inv s) :
    Inv (restUnmuteIP s ip).1 := by
  obtain ⟨hk, hm, hr⟩ := h
  simp only [restUnmuteIP]
  split
  · exact ⟨hk, hm, hr⟩
  · refine ⟨?_, ?_, ?_⟩
    · intro p hp
      rcases List.mem_map.mp hp with ⟨q, hq, rfl⟩
      by_cases hip : q.2.ip = ip
      · simp only [hip, if_true]
        exact hk q hq
      · simp only [hip, if_false]
        exact hk q hq
    · intro p hp
      rcases List.mem_map.mp hp with ⟨q, hq, rfl⟩
      by_cases hip : q.2.ip = ip
      · simp [hip]
      · have base := hm q hq
        simp only [hip, if_false]
        simpa [List.mem_filter, hip] using base
    · intro p hp
      exact hr p hp

theorem inv_joinRoom (s : ServerState) (sid : Nat) (rid : String) (h : Inv s) :
    Inv (joinRoomHandler s sid rid).1 := by
  obtain ⟨hk, hm, hr⟩ := h
  simp only [joinRoomHandler]
  split
  · exact ⟨hk, hm, hr⟩
  · rename_i user hu
    split
    · exact ⟨hk, hm, hr⟩
    · rename_i room hroom
      have husr : (sid, user) ∈ s.users := mget_mem hu
      have hsid : user.socketId = sid := hk (sid, user) husr
      have hrm : (rid, room) ∈ s.rooms := mget_mem hroom
      simp only [apply_ite ServerState.users, apply_ite ServerState.rooms,
        apply_ite ServerState.mutedIPs, ite_self]
      by_cases hany : (room.users.any fun u => u.socketId == sid) = true
      · rw [if_pos hany]
        refine ⟨?_, ?_, ?_⟩
        · intro p hp
          rcases mem_mset hp with h1 | h1
          · rw [h1]
            exact hsid
          · exact hk p h1
        · intro p hp
          rcases mem_mset hp with h1 | h1
          · rw [h1]
            exact hm (sid, user) husr
          · exact hm p h1
        · intro p hp
          rcases mem_mset hp with h1 | h1
          · rw [h1]
            exact hr (rid, room) hrm
          · exact hr p h1
      · rw [if_neg hany]
        refine ⟨?_, ?_, ?_⟩
        · intro p hp
          rcases mem_mset hp with h1 | h1
          · rw [h1]
            exact hsid
          · exact hk p h1
        · intro p hp
          rcases mem_mset hp with h1 | h1
          · rw [h1]
            exact hm (sid, user) husr
          · exact hm p h1
        · intro p hp
          rcases mem_mset hp with h1 | h1
          · rw [h1]
            exact roomOnce_push hsid (hr (rid, room) hrm) (by simpa using hany)
          · exact hr p h1

theorem inv_disconnect (s : ServerState) (sid : Nat) (h : Inv s) :
    Inv (disconnectHandler s sid).1 := by
  obtain ⟨hk, hm, hr⟩ := h
  simp only [disconnectHandler]
  split
  · exact ⟨hk, hm, hr⟩
  · rename_i user hu
    split
    · refine ⟨?_, ?_, ?_⟩
      · intro p hp
        exact hk p (mem_mdel hp)
      · intro p hp
        exact hm p (mem_mdel hp)
      · intro p hp
        rcases List.mem_map.mp hp with ⟨q, hq, rfl⟩
        exact roomOnce_sublist (removeFirstBySid_sublist sid q.2.users) (hr q hq)
    · refine ⟨?_, ?_, ?_⟩
      · intro p hp
        exact hk p (mem_mdel hp)
      · intro p hp
        exact hm p (mem_mdel hp)
      · intro p hp
        rcases List.mem_map.mp hp with ⟨q, hq, rfl⟩
        exact roomOnce_sublist (removeFirstBySid_sublist sid q.2.users) (hr q hq)

theorem evictStep_rooms (rid rn : String) (s : ServerState) (u : User) :
    (evictStep rid rn s u).1.rooms = s.rooms := by
  simp only [evictStep]
  split <;> rfl

theorem evictStep_mutedIPs (rid rn : String) (s : ServerState) (u : User) :
    (evictStep rid rn s u).1.mutedIPs = s.mutedIPs := by
  simp only [evictStep]
  split <;> rfl

theorem evictStep_users (rid rn : String) (s : ServerState) (u : User) {p : Nat × User}
    (hp : p ∈ (evictStep rid rn s u).1.users) :
    ∃ q, q ∈ s.users ∧ p.1 = q.1 ∧ p.2.socketId = q.2.socketId ∧
      p.2.ip = q.2.ip ∧ p.2.isMuted = q.2.isMuted := by
  simp only [evictStep] at hp
  split at hp
  · dsimp only at hp
    rcases mem_mupd hp with h1 | h1
    · exact ⟨p, h1, rfl, rfl, rfl, rfl⟩
    · obtain ⟨q, hq, hqk, hpe⟩ := h1
      refine ⟨q, hq, ?_, ?_, ?_, ?_⟩ <;> rw [hpe]
  · exact ⟨p, hp, rfl, rfl, rfl, rfl⟩

theorem evictUsers_rooms (rid rn : String) (l : List User) :
    ∀ s : ServerState, (evictUsers rid rn s l).1.rooms = s.rooms := by
  induction l with
  | nil => intro s; rfl
  | cons u rest ih =>
    intro s
    simp only [evictUsers]
    rw [ih (evictStep rid rn s u).1]
    exact evictStep_rooms rid rn s u

theorem evictUsers_mutedIPs (rid rn : String) (l : List User) :
    ∀ s : ServerState, (evictUsers rid rn s l).1.mutedIPs = s.mutedIPs := by
  induction l with
  | nil => intro s; rfl
  | cons u rest ih =>
    intro s
    simp only [evictUsers]
    rw [ih (evictStep rid rn s u).1]
    exact evictStep_mutedIPs rid rn s u

theorem evictUsers_users (rid rn : String) (l : List User) :
    ∀ (s : ServerState) (p : Nat × User), p ∈ (evictUsers rid rn s l).1.users →
    ∃ q, q ∈ s.users ∧ p.1 = q.1 ∧ p.2.socketId = q.2.socketId ∧
      p.2.ip = q.2.ip ∧ p.2.isMuted = q.2.isMuted := by
  induction l with
  | nil => intro s p hp; exact ⟨p, hp, rfl, rfl, rfl, rfl⟩
  | cons u rest ih =>
    intro s p hp
    simp only [evictUsers] at hp
    obtain ⟨q, hq, h1, h2, h3, h4⟩ := ih (evictStep rid rn s u).1 p hp
    obtain ⟨r, hr0, g1, g2, g3, g4⟩ := evictStep_users rid rn s u hq
    exact ⟨r, hr0, h1.trans g1, h2.trans g2, h3.trans g3, h4.trans g4⟩

theorem kickStep_rooms (rid rn : String) (s : ServerState) (u : User) :
    (kickStep rid rn s u).1.rooms = s.rooms := by
  simp only [kickStep]
  split <;> rfl

theorem kickStep_mutedIPs (rid rn : String) (s : ServerState) (u : User) :
    (kickStep rid rn s u).1.mutedIPs = s.mutedIPs := by
  simp only [kickStep]
  split <;> rfl

theorem kickStep_users (rid rn : String) (s : ServerState) (u : User) {p : Nat × User}
    (hp : p ∈ (kickStep rid rn s u).1.users) :
    ∃ q, q ∈ s.users ∧ p.1 = q.1 ∧ p.2.socketId = q.2.socketId ∧
      p.2.ip = q.2.ip ∧ p.2.isMuted = q.2.isMuted := by
  simp only [kickStep] at hp
  split at hp
  · dsimp only at hp
    rcases mem_mupd hp with h1 | h1
    · exact ⟨p, h1, rfl, rfl, rfl, rfl⟩
    · obtain ⟨q, hq, hqk, hpe⟩ := h1
      refine ⟨q, hq, ?_, ?_, ?_, ?_⟩ <;> rw [hpe]
  · exact ⟨p, hp, rfl, rfl, rfl, rfl⟩

theorem kickLoop_rooms (rid rn : String) (l : List User) :
    ∀ s : ServerState, (kickLoop rid rn s l).1.rooms = s.rooms := by
  induction l with
  | nil => intro s; rfl
  | cons u rest ih =>
    intro s
    simp only [kickLoop]
    rw [ih (kickStep rid rn s u).1]
    exact kickStep_rooms rid rn s u

theorem kickLoop_mutedIPs (rid rn : String) (l : List User) :
    ∀ s : ServerState, (kickLoop rid rn s l).1.mutedIPs = s.mutedIPs := by
  induction l with
  | nil => intro s; rfl
  | cons u rest ih =>
    intro s
    simp only [kickLoop]
    rw [ih (kickStep rid rn s u).1]
    exact kickStep_mutedIPs rid rn s u

theorem kickLoop_users (rid rn : String) (l : List User) :
    ∀ (s : ServerState) (p : Nat × User), p ∈ (kickLoop rid rn s l).1.users →
    ∃ q, q ∈ s.users ∧ p.1 = q.1 ∧ p.2.socketId = q.2.socketId ∧
      p.2.ip = q.2.ip ∧ p.2.isMuted = q.2.isMuted := by
  induction l with
  | nil => intro s p hp; exact ⟨p, hp, rfl, rfl, rfl, rfl⟩
  | cons u rest ih =>
    intro s p hp
    simp only [kickLoop] at hp
    obtain ⟨q, hq, h1, h2, h3, h4⟩ := ih (kickStep rid rn s u).1 p hp
    obtain ⟨r, hr0, g1, g2, g3, g4⟩ := kickStep_users rid rn s u hq
    exact ⟨r, hr0, h1.trans g1, h2.trans g2, h3.trans g3, h4.trans g4⟩

theorem inv_restDeleteRoom (s : ServerState) (rid : String) (force : Bool) (h : Inv s) :
    Inv (restDeleteRoom s rid force).1 := by
  obtain ⟨hk, hm, hr⟩ := h
  simp only [restDeleteRoom]
  split
  · exact ⟨hk, hm, hr⟩
  · split
    · exact ⟨hk, hm, hr⟩
    · split
      · exact ⟨hk, hm, hr⟩
      · rename_i room hroom
        split
        · exact ⟨hk, hm, hr⟩
        · split
          · refine ⟨?_, ?_, ?_⟩
            · intro p hp
              dsimp only at hp
              obtain ⟨q, hq, h1, h2, h3, h4⟩ :=
                evictUsers_users rid room.name room.users s p hp
              rw [h2, hk q hq, h1]
            · intro p hp
              dsimp only at hp ⊢
              rw [evictUsers_mutedIPs rid room.name room.users s]
              obtain ⟨q, hq, h1, h2, h3, h4⟩ :=
                evictUsers_users rid room.name room.users s p hp
              rw [h3, h4]
              exact hm q hq
            · intro p hp
              dsimp only at hp
              have hp2 := mem_mdel hp
              rw [evictUsers_rooms rid room.name room.users s] at hp2
              exact hr p hp2
          · refine ⟨hk, hm, ?_⟩
            intro p hp
            dsimp only at hp
            exact hr p (mem_mdel hp)

theorem inv_restKickUsers (s : ServerState) (rid : String) (h : Inv s) :
    Inv (restKickUsers s rid).1 := by
  obtain ⟨hk, hm, hr⟩ := h
  simp only [restKickUsers]
  split
  · exact ⟨hk, hm, hr⟩
  · split
    · exact ⟨hk, hm, hr⟩
    · rename_i room hroom
      split
      · exact ⟨hk, hm, hr⟩
      · refine ⟨?_, ?_, ?_⟩
        · intro p hp
          dsimp only at hp
          obtain ⟨q, hq, h1, h2, h3, h4⟩ := kickLoop_users rid room.name room.users s p hp
          rw [h2, hk q hq, h1]
        · intro p hp
          dsimp only at hp ⊢
          rw [kickLoop_mutedIPs rid room.name room.users s]
          obtain ⟨q, hq, h1, h2, h3, h4⟩ := kickLoop_users rid room.name room.users s p hp
          rw [h3, h4]
          exact hm q hq
        · intro p hp
          dsimp only at hp
          rcases mem_mupd hp with h1 | h1
          · rw [kickLoop_rooms rid room.name room.users s] at h1
            exact hr p h1
          · obtain ⟨q, hq, hqk, hpe⟩ := h1
            rw [hpe]
            unfold roomOnce
            exact List.Pairwise.nil

theorem step_inv {s s' : ServerState} (hstep : Step s s') (h : Inv s) : Inv s' := by
  cases hstep with
  | connectEv sid ip => exact inv_connect s sid ip h
  | joinEv sid un rid => exact inv_join s sid un rid h
  | joinRoomEv sid rid => exact inv_joinRoom s sid rid h
  | sendMessageEv sid c rid => exact inv_sendMessage s sid c rid h
  | createRoomEv sid rid rn => exact inv_createRoomHandler s sid rid rn h
  | deleteRoomEv sid rid => exact inv_deleteRoom s sid rid h
  | typingEv sid b rid => exact inv_typing s sid b rid h
  | getRoomsEv sid => exact inv_getRooms s sid h
  | disconnectEv sid => exact inv_disconnect s sid h
  | restMuteEv ip => exact inv_restMuteIP s ip h
  | restUnmuteEv ip => exact inv_restUnmuteIP s ip h
  | restBroadcastEv t => exact inv_restBroadcast s t h
  | restCreateEv ip rid rn tok => exact inv_restCreateRoom s ip rid rn tok h
  | restDeleteEv rid force => exact inv_restDeleteRoom s rid force h
  | restKickEv rid => exact inv_restKickUsers s rid h

theorem inv_initialState : Inv initialState := by
  refine ⟨?_, ?_, ?_⟩
  · intro p hp
    simp [initialState] at hp
  · intro p hp
    simp [initialState] at hp
  · intro p hp
    simp [initialState] at hp
    rw [hp]
    unfold roomOnce
    exact List.Pairwise.nil

theorem reachable_inv {s : ServerState} (h : Reachable s) : Inv s := by
  induction h with
  | init => exact inv_initialState
  | step _ hstep ih => exact step_inv hstep ih

theorem mget_eq_none_of_keys {α β : Type} [DecidableEq α] {l : List (α × β)} {k : α}
    (h : k ∉ l.map Prod.fst) : mget l k = none := by
  induction l with
  | nil => rfl
  | cons q rest ih =>
    simp only [List.map_cons, List.mem_cons] at h
    push_neg at h
    rw [mget, if_neg (fun hh => h.1 hh.symm)]
    exact ih h.2

theorem mget_mdel_self {α β : Type} [DecidableEq α] {l : List (α × β)} {k : α}
    (hnd : (l.map Prod.fst).Nodup) : mget (mdel l k) k = none := by
  induction l with
  | nil => rfl
  | cons q rest ih =>
    rw [List.map_cons] at hnd
    have hnd2 := List.nodup_cons.mp hnd
    by_cases hk : q.1 = k
    · rw [mdel, if_pos hk]
      apply mget_eq_none_of_keys
      rw [← hk]
      exact hnd2.1
    · rw [mdel, if_neg hk, mget, if_neg hk]
      exact ih hnd2.2

theorem removeFirstBySid_not_mem (sid : Nat) :
    ∀ l : List User, l.Pairwise (fun a b => a.socketId ≠ b.socketId) →
      ∀ u ∈ removeFirstBySid sid l, u.socketId ≠ sid := by
  intro l
  induction l with
  | nil =>
    intro _ u hu
    simp [removeFirstBySid] at hu
  | cons v rest ih =>
    intro hp u hu
    rw [removeFirstBySid] at hu
    by_cases hv : v.socketId = sid
    · rw [if_pos hv] at hu
      intro heq
      exact (List.pairwise_cons.mp hp).1 u hu (hv.trans heq.symm)
    · rw [if_neg hv] at hu
      rcases List.mem_cons.mp hu with h1 | h1
      · rw [h1]
        exact hv
      · exact ih (List.pairwise_cons.mp hp).2 u h1

theorem updateUserList_shape (s : ServerState) (rid : String) :
    ∀ o ∈ updateUserList s rid, ∃ pl, o = Out.toRoom rid pl := by
  unfold updateUserList
  split
  · intro o ho
    simp at ho
    exact ⟨_, ho⟩
  · intro o ho
    simp at ho

/-- C9: on disconnect of a joined connection (bound user, member of its
current room, unique map keys and unique member entries as maintained by
every handler), the user is removed from every room's member list and
unbound from the session registry; a `leave` system message is appended
and emitted only to the room that was the user's `currentRoom`; histories
of all other rooms are unchanged; and every room-targeted emission of the
handler (message or user-list) targets only that current room, the sole
global emission being the room-list broadcast. -/
theorem C9_disconnect_frame (s : ServerState) (sid : Nat) (user : User) (curRoom : Room)
    (hu : mget s.users sid = some user)
    (hcur : mget s.rooms user.currentRoom = some curRoom)
    (hin : (curRoom.users.any fun u => u.socketId == sid) = true)
    (honce : memberOnce s)
    (hkeys : (s.users.map Prod.fst).Nodup)
    (hhist : mhas s.messages user.currentRoom = true) :
    mget (disconnectHandler s sid).1.users sid = none ∧
    (∀ p ∈ (disconnectHandler s sid).1.rooms, ∀ u ∈ p.2.users, u.socketId ≠ sid) ∧
    (∀ rid, rid ≠ user.currentRoom →
      historyOf (disconnectHandler s sid).1 rid = historyOf s rid) ∧
    (∃ m, m.type = MsgType.leave ∧
      historyOf (disconnectHandler s sid).1 user.currentRoom =
        historyOf s user.currentRoom ++ [m] ∧
      Out.toRoomExcept user.currentRoom sid (Payload.msg m) ∈ (disconnectHandler s sid).2) ∧
    (∀ o ∈ (disconnectHandler s sid).2,
      (∀ rid sid2 pl, o = Out.toRoomExcept rid sid2 pl → rid = user.currentRoom) ∧
      (∀ rid pl, o = Out.toRoom rid pl → rid = user.currentRoom) ∧
      (∀ pl, o = Out.toAll pl → ∃ rl, pl = Payload.roomList rl) ∧
      (∀ sid2 pl, o ≠ Out.toSocket sid2 pl)) := by
  obtain ⟨hist, hh⟩ : ∃ h, mget s.messages user.currentRoom = some h := by
    unfold mhas at hhist
    cases hg : mget s.messages user.currentRoom with
    | none => rw [hg] at hhist; simp at hhist
    | some h => exact ⟨h, rfl⟩
  simp only [disconnectHandler, hu, hcur, hin, eq_self_iff_true, if_true]
  refine ⟨?_, ?_, ?_, ?_, ?_⟩
  · exact mget_mdel_self hkeys
  · intro p hp u hup
    rcases List.mem_map.mp hp with ⟨q, hq, rfl⟩
    exact removeFirstBySid_not_mem sid q.2.users (honce q hq) u hup
  · intro rid hrid
    unfold historyOf
    dsimp only
    rw [mget_mupd_ne _ _ _ _ hrid]
  · refine ⟨⟨s.nextId, MsgType.leave, "系统",
      user.username ++ " (IP: " ++ user.ip ++ ") 离开了聊天室",
      none, none, s.now, some user.currentRoom, some user.ip⟩, rfl, ?_, ?_⟩
    · unfold historyOf
      dsimp only
      rw [mget_mupd_self, hh]
      rfl
    · simp
  · intro o ho
    simp only [List.mem_append, List.mem_cons, List.mem_singleton] at ho
    rcases ho with ((h1 | h0) | h1) | (h1 | h0)
    · subst h1
      refine ⟨?_, ?_, ?_, ?_⟩
      · intro rid sid2 pl he
        injection he with e1 e2 e3
        exact e1.symm
      · intro rid pl he
        exact absurd he (by simp)
      · intro pl he
        exact absurd he (by simp)
      · intro sid2 pl he
        exact absurd he (by simp)
    · exact absurd h0 (List.not_mem_nil o)
    · obtain ⟨pl, rfl⟩ := updateUserList_shape _ _ o h1
      refine ⟨?_, ?_, ?_, ?_⟩
      · intro rid sid2 pl2 he
        exact absurd he (by simp)
      · intro rid pl2 he
        injection he with e1 e2
        exact e1.symm
      · intro pl2 he
        exact absurd he (by simp)
      · intro sid2 pl2 he
        exact absurd he (by simp)
    · subst h1
      refine ⟨?_, ?_, ?_, ?_⟩
      · intro rid sid2 pl he
        exact absurd he (by simp)
      · intro rid pl he
        exact absurd he (by simp)
      · intro pl he
        injection he with e1
        exact ⟨_, e1.symm⟩
      · intro sid2 pl he
        exact absurd he (by simp)
    · exact absurd h0 (List.not_mem_nil o)

theorem createRoom_mget_self (s : ServerState) (rid rn : String) :
    ∃ r, mget (createRoom s rid rn).1.rooms rid = some r := by
  unfold createRoom
  split
  · rename_i r hr
    exact ⟨r, hr⟩
  · exact ⟨_, mget_mset_self _ _ _⟩

theorem mupd_keys {α β : Type} [DecidableEq α] (l : List (α × β)) (k : α) (f : β → β) :
    (mupd l k f).map Prod.fst = l.map Prod.fst := by
  induction l with
  | nil => rfl
  | cons q rest ih =>
    by_cases hk : q.1 = k
    · simp [mupd, hk]
    · simp [mupd, hk, ih]

theorem evictStep_messages_keys (rid rn : String) (s : ServerState) (u : User) :
    (evictStep rid rn s u).1.messages.map Prod.fst = s.messages.map Prod.fst := by
  simp only [evictStep]
  split
  · dsimp only
    rw [mupd_keys]
  · rfl

theorem evictUsers_messages_keys (rid rn : String) (l : List User) :
    ∀ s : ServerState,
      (evictUsers rid rn s l).1.messages.map Prod.fst = s.messages.map Prod.fst := by
  induction l with
  | nil => intro s; rfl
  | cons u rest ih =>
    intro s
    simp only [evictUsers]
    rw [ih (evictStep rid rn s u).1]
    exact evictStep_messages_keys rid rn s u

theorem evictStep_outs (rid rn : String) (s : ServerState) (u : User) :
    (∃ m, m.type = MsgType.admin ∧
      Out.toSocket u.socketId (Payload.msg m) ∈ (evictStep rid rn s u).2) ∧
    Out.toSocket u.socketId (Payload.roomDeleted rid rn (some "房间已被管理员删除"))
      ∈ (evictStep rid rn s u).2 := by
  simp only [evictStep]
  split
  · refine ⟨⟨⟨s.nextId, MsgType.admin, "系统",
      "房间 \"" ++ rn ++ "\" 已被管理员删除，您已被移出房间",
      none, none, s.now, none, none⟩, rfl, ?_⟩, ?_⟩ <;> simp
  · refine ⟨⟨⟨s.nextId, MsgType.admin, "系统",
      "房间 \"" ++ rn ++ "\" 已被管理员删除，您已被移出房间",
      none, none, s.now, none, none⟩, rfl, ?_⟩, ?_⟩ <;> simp

theorem evictUsers_outs (rid rn : String) (l : List User) :
    ∀ s : ServerState, ∀ u ∈ l,
      (∃ m, m.type = MsgType.admin ∧
        Out.toSocket u.socketId (Payload.msg m) ∈ (evictUsers rid rn s l).2) ∧
      Out.toSocket u.socketId (Payload.roomDeleted rid rn (some "房间已被管理员删除"))
        ∈ (evictUsers rid rn s l).2 := by
  induction l with
  | nil =>
    intro s u hu
    simp at hu
  | cons v rest ih =>
    intro s u hu
    rcases List.mem_cons.mp hu with h1 | h1
    · subst h1
      obtain ⟨⟨m, hm, hmem⟩, hmem2⟩ := evictStep_outs rid rn s u
      refine ⟨⟨m, hm, ?_⟩, ?_⟩
      · simp only [evictUsers]
        exact List.mem_append_left _ hmem
      · simp only [evictUsers]
        exact List.mem_append_left _ hmem2
    · obtain ⟨⟨m, hm, hmem⟩, hmem2⟩ := ih (evictStep rid rn s v).1 u h1
      refine ⟨⟨m, hm, ?_⟩, ?_⟩
      · simp only [evictUsers]
        exact List.mem_append_right _ hmem
      · simp only [evictUsers]
        exact List.mem_append_right _ hmem2

/-- C1 counterexample: socket 1 joins `default`, creates `team`, then
switches to `team` via `join_room`; afterwards the connection's entry is
present in the member lists of BOTH `default` and `team` (2 of the 2 rooms),
refuting "a member of exactly one room's member list after a switch". -/
theorem C1_counterexample :
    c1s4.rooms.countP (fun p => p.2.users.any (fun u => u.socketId == 1)) = 2 ∧
    c1s4.rooms.length = 2 ∧
    (mget c1s4.users 1).map User.currentRoom = some "team" := by
  decide

/-- C1 (amended): a `join_room` switch by a bound user to an existing room
updates the session's `currentRoom` and ensures the user is in the target
room's member list, but leaves every other room's entry — in particular the
old room's member list — completely unchanged: the user is not removed from
the old room. -/
theorem C1_switch_keeps_old_membership (s : ServerState) (sid : Nat) (roomId : String)
    (user : User) (room : Room)
    (hu : mget s.users sid = some user) (hroom : mget s.rooms roomId = some room)
    (hks : user.socketId = sid) :
    mget (joinRoomHandler s sid roomId).1.users sid =
      some { user with currentRoom := roomId } ∧
    (∃ room2, mget (joinRoomHandler s sid roomId).1.rooms roomId = some room2 ∧
      (room2.users.any fun u => u.socketId == sid) = true) ∧
    (∀ rid2, rid2 ≠ roomId →
      mget (joinRoomHandler s sid roomId).1.rooms rid2 = mget s.rooms rid2) := by
  simp only [joinRoomHandler, hu, hroom]
  simp only [apply_ite ServerState.users, apply_ite ServerState.rooms, ite_self]
  refine ⟨?_, ?_, ?_⟩
  · exact mget_mset_self _ _ _
  · by_cases hany : (room.users.any fun u => u.socketId == sid) = true
    · rw [if_pos hany]
      exact ⟨room, mget_mset_self _ _ _, hany⟩
    · rw [if_neg hany]
      refine ⟨_, mget_mset_self _ _ _, ?_⟩
      simp [hks]
  · intro rid2 hne2
    exact mget_mset_ne _ _ _ _ hne2

/-- C1 witness: the amended switch behaviour at the concrete three-step
scenario. -/
theorem C1_switch_keeps_old_membership_witness :
    mget (joinRoomHandler c1s3 1 "team").1.users 1 =
      some ⟨0, "alice", 1, 0, "10.0.0.1", false, "team"⟩ ∧
    (∃ room2, mget (joinRoomHandler c1s3 1 "team").1.rooms "team" = some room2 ∧
      (room2.users.any fun u => u.socketId == 1) = true) ∧
    (∀ rid2, rid2 ≠ "team" →
      mget (joinRoomHandler c1s3 1 "team").1.rooms rid2 = mget c1s3.rooms rid2) :=
  C1_switch_keeps_old_membership c1s3 1 "team"
    ⟨0, "alice", 1, 0, "10.0.0.1", false, "default"⟩ ⟨"team", "team", [], 0, true⟩
    (by decide) (by decide) (by decide)

/-- C2 counterexample: alice (socket 1, connected) is the sole member of
`team`; force-deleting `team` over REST succeeds, repoints her session at
`default`, but the `default` room's member list is left EMPTY — she is not
made a member of it, refuting "every former member ends up as a member of
the default room's member list". -/
theorem C2_counterexample :
    (restDeleteRoom c2s2 "team" true).2.2 = ⟨200, none⟩ ∧
    mget c2s3.rooms "team" = none ∧
    (mget c2s3.users 1).map User.currentRoom = some "default" ∧
    (mget c2s3.rooms "default").map Room.users = some [] := by
  decide

/-- C2 (amended): force-deleting a populated room succeeds; every former
member receives an `admin`-kind kick message and a `room_deleted` notice
addressed to their socket; the room and its history are discarded; but the
default room's entry (hence its member list) is unchanged — members are
never added to it. -/
theorem C2_force_delete_relocation (s : ServerState) (roomId : String) (room : Room)
    (hne : roomId ≠ "") (hnd : roomId ≠ "default")
    (hroom : mget s.rooms roomId = some room) (hmem : room.users ≠ [])
    (hrkeys : (s.rooms.map Prod.fst).Nodup)
    (hmkeys : (s.messages.map Prod.fst).Nodup) :
    (restDeleteRoom s roomId true).2.2 = ⟨200, none⟩ ∧
    mget (restDeleteRoom s roomId true).1.rooms roomId = none ∧
    mget (restDeleteRoom s roomId true).1.messages roomId = none ∧
    mget (restDeleteRoom s roomId true).1.rooms "default" = mget s.rooms "default" ∧
    (∀ u ∈ room.users,
      (∃ m, m.type = MsgType.admin ∧
        Out.toSocket u.socketId (Payload.msg m) ∈ (restDeleteRoom s roomId true).2.1) ∧
      Out.toSocket u.socketId
          (Payload.roomDeleted roomId room.name (some "房间已被管理员删除"))
        ∈ (restDeleteRoom s roomId true).2.1) := by
  have hlen : 0 < room.users.length := List.length_pos.mpr hmem
  simp only [restDeleteRoom, hroom]
  rw [if_neg hne, if_neg hnd]
  rw [if_neg (show ¬(0 < room.users.length ∧ true = false) from fun hc => by
    simpa using hc.2)]
  rw [if_pos (show 0 < room.users.length ∧ True from ⟨hlen, trivial⟩)]
  refine ⟨rfl, ?_, ?_, ?_, ?_⟩
  · dsimp only
    rw [evictUsers_rooms]
    exact mget_mdel_self hrkeys
  · dsimp only
    apply mget_mdel_self
    rw [evictUsers_messages_keys]
    exact hmkeys
  · dsimp only
    rw [mget_mdel_ne _ _ _ (fun hh => hnd hh.symm)]
    rw [evictUsers_rooms]
  · intro u hu
    obtain ⟨⟨m, hm, hmem1⟩, hmem2⟩ := evictUsers_outs roomId room.name room.users s u hu
    constructor
    · exact ⟨m, hm, List.mem_append_left _ hmem1⟩
    · exact List.mem_append_left _ hmem2

/-- C2 witness: the amended force-deletion behaviour at the concrete
scenario where alice occupies `team`. -/
theorem C2_force_delete_relocation_witness :
    (restDeleteRoom c2s2 "team" true).2.2 = ⟨200, none⟩ ∧
    mget (restDeleteRoom c2s2 "team" true).1.rooms "team" = none ∧
    mget (restDeleteRoom c2s2 "team" true).1.messages "team" = none ∧
    mget (restDeleteRoom c2s2 "team" true).1.rooms "default" = mget c2s2.rooms "default" ∧
    (∀ u ∈ (⟨"team", "team", [⟨0, "alice", 1, 0, "10.0.0.1", false, "team"⟩], 0, true⟩ : Room).users,
      (∃ m, m.type = MsgType.admin ∧
        Out.toSocket u.socketId (Payload.msg m) ∈ (restDeleteRoom c2s2 "team" true).2.1) ∧
      Out.toSocket u.socketId
          (Payload.roomDeleted "team" "team" (some "房间已被管理员删除"))
        ∈ (restDeleteRoom c2s2 "team" true).2.1) :=
  C2_force_delete_relocation c2s2 "team"
    ⟨"team", "team", [⟨0, "alice", 1, 0, "10.0.0.1", false, "team"⟩], 0, true⟩
    (by decide) (by decide) (by decide) (by decide) (by decide) (by decide)

/-- C3: in every reachable server state, a `send_message` attempt by a
connected user whose source address is in the moderation registry is
rejected: the state is returned unchanged (so no message of kind `text` —
or of any kind — is appended to any room's history) and the only emission
is the mute error to the sender's own socket.  Reachability supplies the
mirror invariant that the user record's `isMuted` flag, which the handler
actually checks, agrees with the registry. -/
theorem C3_muted_send_rejected {s : ServerState} (hreach : Reachable s)
    {sid : Nat} {user : User} (hu : mget s.users sid = some user)
    (hmuted : user.ip ∈ s.mutedIPs) (content : String) (roomIdOpt : Option String) :
    sendMessageHandler s sid content roomIdOpt =
      (s, [Out.toSocket sid (Payload.errMsg "你已被禁言，无法发送消息")]) := by
  have hflag : user.isMuted = true :=
    ((reachable_inv hreach).2.1 (sid, user) (mget_mem hu)).mpr hmuted
  simp [sendMessageHandler, hu, hflag]

/-- C3 witness: alice connects and joins, her address is muted over the
REST moderation endpoint, and her next send attempt is rejected to her
socket only with the state unchanged. -/
theorem C3_muted_send_rejected_witness :
    sendMessageHandler c3s3 1 "hi" none =
      (c3s3, [Out.toSocket 1 (Payload.errMsg "你已被禁言，无法发送消息")]) :=
  C3_muted_send_rejected
    (Reachable.step (Reachable.step (Reachable.step Reachable.init
        (Step.connectEv initialState 1 "10.0.0.1"))
        (Step.joinEv c3s1 1 "alice" none))
      (Step.restMuteEv c3s2 "10.0.0.1"))
    (show mget c3s3.users 1 = some ⟨0, "alice", 1, 0, "10.0.0.1", true, "default"⟩ by decide)
    (by decide) "hi" none

/-- C5: deleting an existing, non-default room that still has members fails
on both entry points — the channel `delete_room` handler and the REST
endpoint without the force flag — and in both cases the state (rooms,
histories, member lists, everything) is returned exactly unchanged, with
only the room-not-empty error reported. -/
theorem C5_nonempty_delete_rejected (s : ServerState) (sid : Nat) (roomId : String)
    (user : User) (room : Room)
    (hu : mget s.users sid = some user)
    (hne : roomId ≠ "") (hnd : roomId ≠ "default")
    (hroom : mget s.rooms roomId = some room) (hmem : room.users ≠ []) :
    deleteRoomHandler s sid roomId =
      (s, [Out.toSocket sid (Payload.errMsg "房间中还有用户，无法删除")]) ∧
    restDeleteRoom s roomId false =
      (s, [], ⟨400, some "房间中还有用户，无法删除"⟩) := by
  have hlen : 0 < room.users.length := List.length_pos.mpr hmem
  constructor
  · simp [deleteRoomHandler, hu, hne, hnd, hroom, hlen]
  · simp [restDeleteRoom, hne, hnd, hroom, hlen]

/-- C5 witness: with alice occupying `team`, both deletion paths reject and
leave the state untouched. -/
theorem C5_nonempty_delete_rejected_witness :
    deleteRoomHandler c5s2 1 "team" =
      (c5s2, [Out.toSocket 1 (Payload.errMsg "房间中还有用户，无法删除")]) ∧
    restDeleteRoom c5s2 "team" false =
      (c5s2, [], ⟨400, some "房间中还有用户，无法删除"⟩) :=
  C5_nonempty_delete_rejected c5s2 1 "team"
    ⟨0, "alice", 1, 0, "10.0.0.1", false, "team"⟩
    ⟨"team", "team", [⟨0, "alice", 1, 0, "10.0.0.1", false, "team"⟩], 0, true⟩
    (by decide) (by decide) (by decide) (by decide) (by decide)

/-- C9 witness: the disconnect frame property at the concrete state where
alice (socket 1) is joined to `default`. -/
theorem C9_disconnect_frame_witness :
    mget (disconnectHandler c9s2 1).1.users 1 = none ∧
    (∀ p ∈ (disconnectHandler c9s2 1).1.rooms, ∀ u ∈ p.2.users, u.socketId ≠ 1) ∧
    (∀ rid, rid ≠ "default" →
      historyOf (disconnectHandler c9s2 1).1 rid = historyOf c9s2 rid) ∧
    (∃ m, m.type = MsgType.leave ∧
      historyOf (disconnectHandler c9s2 1).1 "default" =
        historyOf c9s2 "default" ++ [m] ∧
      Out.toRoomExcept "default" 1 (Payload.msg m) ∈ (disconnectHandler c9s2 1).2) ∧
    (∀ o ∈ (disconnectHandler c9s2 1).2,
      (∀ rid sid2 pl, o = Out.toRoomExcept rid sid2 pl → rid = "default") ∧
      (∀ rid pl, o = Out.toRoom rid pl → rid = "default") ∧
      (∀ pl, o = Out.toAll pl → ∃ rl, pl = Payload.roomList rl) ∧
      (∀ sid2 pl, o ≠ Out.toSocket sid2 pl)) :=
  C9_disconnect_frame c9s2 1 ⟨0, "alice", 1, 0, "10.0.0.1", false, "default"⟩
    ⟨"default", "公共聊天室", [⟨0, "alice", 1, 0, "10.0.0.1", false, "default"⟩], 0, true⟩
    (by decide) (by decide) (by decide)
    (reachable_inv (Reachable.step (Reachable.step Reachable.init
        (Step.connectEv initialState 1 "10.0.0.1"))
        (Step.joinEv c9s1 1 "alice" none))).2.2
    (by decide) (by decide)

/-- C10: in every reachable server state, every room's member list holds
pairwise-distinct connection ids, i.e. at most one entry per connection:
the duplicate guards of the `join` and `join_room` handlers (and the
removal or clearing done by every other handler) never let a repeated join
duplicate a membership entry within a room. -/
theorem C10_member_once {s : ServerState} (h : Reachable s) : memberOnce s :=
  (reachable_inv h).2.2

/-- C10 witness: the at-most-one-entry property at a concrete reachable
state with a joined user. -/
theorem C10_member_once_witness : memberOnce c10s2 :=
  C10_member_once (Reachable.step (Reachable.step Reachable.init
      (Step.connectEv initialState 1 "10.0.0.1"))
    (Step.joinEv c10s1 1 "alice" none))

theorem createRoom_mhas_self (s : ServerState) (rid rn : String) :
    mget (createRoom s rid rn).1.rooms rid ≠ none := by
  obtain ⟨r, hr⟩ := createRoom_mget_self s rid rn
  rw [hr]
  simp

theorem mhas_false_iff {α β : Type} [DecidableEq α] (l : List (α × β)) (k : α) :
    mhas l k = false ↔ mget l k = none := by
  unfold mhas
  cases mget l k <;> simp

/-- C4: the history delivered to a newly switched connection (`join_room`)
and to a newly joined connection (`join`) is the emission of
`slice(-50)` of the room's history at delivery time: it is a suffix of
that history (hence oldest-first, in order), its length is `min 50 n`, and
as soon as the history exceeds 50 entries the earliest message (for a
duplicate-free history) is no longer contained in it. -/
theorem C4_history_last50 :
    (∀ (s : ServerState) (sid : Nat) (roomId : String) (user : User) (room : Room),
      mget s.users sid = some user → mget s.rooms roomId = some room →
      Out.toSocket sid (Payload.msgHistory
          (sliceLast 50 (historyOf (joinRoomHandler s sid roomId).1 roomId)))
        ∈ (joinRoomHandler s sid roomId).2 ∧
      sliceLast 50 (historyOf (joinRoomHandler s sid roomId).1 roomId) <:+
        historyOf (joinRoomHandler s sid roomId).1 roomId ∧
      (sliceLast 50 (historyOf (joinRoomHandler s sid roomId).1 roomId)).length =
        min 50 (historyOf (joinRoomHandler s sid roomId).1 roomId).length ∧
      (∀ m, (historyOf (joinRoomHandler s sid roomId).1 roomId).head? = some m →
        (historyOf (joinRoomHandler s sid roomId).1 roomId).Nodup →
        50 < (historyOf (joinRoomHandler s sid roomId).1 roomId).length →
        m ∉ sliceLast 50 (historyOf (joinRoomHandler s sid roomId).1 roomId))) ∧
    (∀ (s : ServerState) (sid : Nat) (username : String) (roomIdOpt : Option String)
        (ip : String),
      mget s.sockets sid = some ip →
      ¬(username.length < 2 ∨ username.length > 20) →
      Out.toSocket sid (Payload.msgHistory
          (sliceLast 50 (historyOf (joinHandler s sid username roomIdOpt).1
            (roomIdOpt.getD "default"))))
        ∈ (joinHandler s sid username roomIdOpt).2 ∧
      sliceLast 50 (historyOf (joinHandler s sid username roomIdOpt).1
          (roomIdOpt.getD "default")) <:+
        historyOf (joinHandler s sid username roomIdOpt).1 (roomIdOpt.getD "default") ∧
      (∀ m, (historyOf (joinHandler s sid username roomIdOpt).1
            (roomIdOpt.getD "default")).head? = some m →
        (historyOf (joinHandler s sid username roomIdOpt).1
          (roomIdOpt.getD "default")).Nodup →
        50 < (historyOf (joinHandler s sid username roomIdOpt).1
          (roomIdOpt.getD "default")).length →
        m ∉ sliceLast 50 (historyOf (joinHandler s sid username roomIdOpt).1
          (roomIdOpt.getD "default")))) := by
  constructor
  · intro s sid roomId user room hu hroom
    refine ⟨?_, sliceLast_suffix _ _, sliceLast_length _ _, ?_⟩
    · simp only [joinRoomHandler, hu, hroom]
      simp
    · intro m hm hnd h50
      exact sliceLast_head_dropped h50 hnd hm
  · intro s sid username roomIdOpt ip hsock hlen
    refine ⟨?_, sliceLast_suffix _ _, ?_⟩
    · obtain ⟨room2, hroom2⟩ := createRoom_mget_self
        { s with users := mset s.users sid (User.mk s.nextId username sid s.now ip (decide (ip ∈ s.mutedIPs)) (roomIdOpt.getD "default")), nextId := s.nextId + 1 }
        (roomIdOpt.getD "default")
        (if roomIdOpt.getD "default" = "default" then "公共聊天室"
         else roomIdOpt.getD "default")
      simp only [joinHandler, hsock, if_neg hlen, hroom2]
      simp only [List.mem_append, List.mem_cons]
      refine Or.inl (Or.inl (Or.inr (Or.inr (Or.inl ?_))))
      rfl
    · intro m hm hnd h50
      exact sliceLast_head_dropped h50 hnd hm

/-- C4 witness: the delivered-history facts at concrete states — a switch
into `team` and a fresh join into `default`. -/
theorem C4_history_last50_witness :
    (Out.toSocket 1 (Payload.msgHistory
        (sliceLast 50 (historyOf (joinRoomHandler c4s3 1 "team").1 "team")))
      ∈ (joinRoomHandler c4s3 1 "team").2 ∧
    sliceLast 50 (historyOf (joinRoomHandler c4s3 1 "team").1 "team") <:+
      historyOf (joinRoomHandler c4s3 1 "team").1 "team" ∧
    (sliceLast 50 (historyOf (joinRoomHandler c4s3 1 "team").1 "team")).length =
      min 50 (historyOf (joinRoomHandler c4s3 1 "team").1 "team").length ∧
    (∀ m, (historyOf (joinRoomHandler c4s3 1 "team").1 "team").head? = some m →
      (historyOf (joinRoomHandler c4s3 1 "team").1 "team").Nodup →
      50 < (historyOf (joinRoomHandler c4s3 1 "team").1 "team").length →
      m ∉ sliceLast 50 (historyOf (joinRoomHandler c4s3 1 "team").1 "team"))) ∧
    (Out.toSocket 1 (Payload.msgHistory
        (sliceLast 50 (historyOf (joinHandler c4s1 1 "alice" none).1 "default")))
      ∈ (joinHandler c4s1 1 "alice" none).2) :=
  ⟨C4_history_last50.1 c4s3 1 "team" ⟨0, "alice", 1, 0, "10.0.0.1", false, "default"⟩
      ⟨"team", "team", [], 0, true⟩ (by decide) (by decide),
   (C4_history_last50.2 c4s1 1 "alice" none "10.0.0.1" (by decide) (by decide)).1⟩

/-- C6 counterexample: a joined, unmuted user issues channel `create_room`
with the one-character id `"a"` — outside the 2–20 bounds — and the request
SUCCEEDS: the room is created and no error is emitted, refuting the claimed
`ValidationError` on length bounds for the channel path. -/
theorem C6_counterexample :
    "a".length < 2 ∧
    (mget (createRoomHandler c6s2 1 "a" none).1.rooms "a").isSome = true ∧
    ((createRoomHandler c6s2 1 "a" none).2.all
      (fun o => match o with
        | Out.toSocket _ (Payload.errMsg _) => false
        | _ => true)) = true := by
  decide

/-- C6 (amended): the channel `create_room` handler checks, in order:
empty id after trimming (ValidationError), the user's mute flag then the
address registry (Forbidden), and id collision (ValidationError); there is
no length-bounds check on this path.  On success it creates the room with
an empty member list — the requester is not auto-joined and the session
map is untouched — leaves other rooms unchanged, and emits `room_created`
to the requester plus the room-list broadcast. -/
theorem C6_create_room_checks (s : ServerState) (sid : Nat) (roomId : String)
    (roomNameOpt : Option String) (user : User) (hu : mget s.users sid = some user) :
    (jsTrim roomId = "" →
      createRoomHandler s sid roomId roomNameOpt =
        (s, [Out.toSocket sid (Payload.errMsg "房间ID不能为空")])) ∧
    (jsTrim roomId ≠ "" → user.isMuted = true →
      createRoomHandler s sid roomId roomNameOpt =
        (s, [Out.toSocket sid (Payload.errMsg "你已被禁言，无法创建房间")])) ∧
    (jsTrim roomId ≠ "" → user.isMuted = false → user.ip ∈ s.mutedIPs →
      createRoomHandler s sid roomId roomNameOpt =
        (s, [Out.toSocket sid (Payload.errMsg "你的IP已被禁言，无法创建房间")])) ∧
    (jsTrim roomId ≠ "" → user.isMuted = false → user.ip ∉ s.mutedIPs →
      mhas s.rooms roomId = true →
      createRoomHandler s sid roomId roomNameOpt =
        (s, [Out.toSocket sid (Payload.errMsg "房间已存在")])) ∧
    (jsTrim roomId ≠ "" → user.isMuted = false → user.ip ∉ s.mutedIPs →
      mhas s.rooms roomId = false →
      mget (createRoomHandler s sid roomId roomNameOpt).1.rooms roomId =
        some ⟨roomId, jsOr roomNameOpt roomId, [], s.now, true⟩ ∧
      (∀ rid2, rid2 ≠ roomId →
        mget (createRoomHandler s sid roomId roomNameOpt).1.rooms rid2 =
          mget s.rooms rid2) ∧
      (createRoomHandler s sid roomId roomNameOpt).1.users = s.users ∧
      (createRoomHandler s sid roomId roomNameOpt).2 =
        [Out.toSocket sid (Payload.roomCreated roomId (jsOr roomNameOpt roomId)),
         Out.toAll (Payload.roomList
           (roomListOf (createRoomHandler s sid roomId roomNameOpt).1))]) := by
  refine ⟨?_, ?_, ?_, ?_, ?_⟩
  · intro h1
    simp [createRoomHandler, hu, h1]
  · intro h1 h2
    simp [createRoomHandler, hu, h1, h2]
  · intro h1 h2 h3
    simp [createRoomHandler, hu, h1, h2, h3]
  · intro h1 h2 h3 h4
    simp [createRoomHandler, hu, h1, h2, h3, h4]
  · intro h1 h2 h3 h4
    have h5 : mget s.rooms roomId = none := (mhas_false_iff s.rooms roomId).mp h4
    refine ⟨?_, ?_, ?_, ?_⟩
    · simp only [createRoomHandler, hu, h1, h2, h3, h4]
      simp only [createRoom, h5]
      simp [h1, h2, h3, mget_mset_self]
    · intro rid2 hne2
      simp only [createRoomHandler, hu, h1, h2, h3, h4]
      simp only [createRoom, h5]
      simp [h1, h2, h3, mget_mset_ne _ _ _ _ hne2]
    · simp only [createRoomHandler, hu, h1, h2, h3, h4]
      simp only [createRoom, h5]
      simp [h1, h2, h3]
    · simp only [createRoomHandler, hu, h1, h2, h3, h4]
      simp only [createRoom, h5]
      simp [h1, h2, h3]

/-- C6 witness: the success path at the concrete state, creating room
`"zz"` (length 2) without auto-join. -/
theorem C6_create_room_checks_witness :
    mget (createRoomHandler c6s2 1 "zz" none).1.rooms "zz" =
      some ⟨"zz", "zz", [], 0, true⟩ ∧
    (∀ rid2, rid2 ≠ "zz" →
      mget (createRoomHandler c6s2 1 "zz" none).1.rooms rid2 = mget c6s2.rooms rid2) ∧
    (createRoomHandler c6s2 1 "zz" none).1.users = c6s2.users ∧
    (createRoomHandler c6s2 1 "zz" none).2 =
      [Out.toSocket 1 (Payload.roomCreated "zz" "zz"),
       Out.toAll (Payload.roomList (roomListOf (createRoomHandler c6s2 1 "zz" none).1))] :=
  (C6_create_room_checks c6s2 1 "zz" none ⟨0, "alice", 1, 0, "10.0.0.1", false, "default"⟩
    (by decide)).2.2.2.2 (by decide) (by decide) (by decide) (by decide)

/-- C7 counterexample: alice's current room is `team`, yet a `send_message`
without a `roomId` appends the text message to the `default` room's history
and broadcasts to `default`; `team`'s history is unchanged — the target
does not default to the sender's current room. -/
theorem C7_counterexample :
    (mget c7s2.users 1).map User.currentRoom = some "team" ∧
    historyOf (sendMessageHandler c7s2 1 "hi" none).1 "team" = historyOf c7s2 "team" ∧
    (historyOf (sendMessageHandler c7s2 1 "hi" none).1 "default").countP
      (fun m => m.type == MsgType.text) = 1 ∧
    (historyOf c7s2 "default").countP (fun m => m.type == MsgType.text) = 0 ∧
    (sendMessageHandler c7s2 1 "hi" none).2 =
      [Out.toRoom "default" (Payload.msg
        ⟨2, MsgType.text, "alice", "hi", some "hi", some false, 0,
          some "default", some "10.0.0.1"⟩)] := by
  decide

/-- C7 (amended): a `send_message` from a bound, unmuted user with
non-blank content and NO `roomId` field targets the fixed room `default`
(the destructuring default), whatever the user's `currentRoom` is: the
text message carries room `default`, is appended to `default`'s history
slot only, and the single emission goes to room `default`. -/
theorem C7_send_defaults_to_fixed_room (s : ServerState) (sid : Nat) (content : String)
    (user : User) (hu : mget s.users sid = some user) (hns : user.isMuted = false)
    (hct : jsTrim content ≠ "") :
    ∃ m : Message, m.type = MsgType.text ∧ m.room = some "default" ∧
      (sendMessageHandler s sid content none).1 =
        { s with messages := mupd s.messages "default" (fun l => l ++ [m]),
                 nextId := s.nextId + 1 } ∧
      (sendMessageHandler s sid content none).2 = [Out.toRoom "default" (Payload.msg m)] := by
  refine ⟨⟨s.nextId, MsgType.text, user.username, jsTrim content,
    some (if containsMarkdown content = true then processMarkdown content else content),
    some (containsMarkdown content), s.now, some "default", some user.ip⟩,
    rfl, rfl, ?_, ?_⟩
  · simp [sendMessageHandler, hu, hns, hct]
  · simp [sendMessageHandler, hu, hns, hct]

/-- C7 witness: the amended defaulting behaviour at the concrete state
where alice's current room is `team`. -/
theorem C7_send_defaults_to_fixed_room_witness :
    ∃ m : Message, m.type = MsgType.text ∧ m.room = some "default" ∧
      (sendMessageHandler c7s2 1 "hi" none).1 =
        { c7s2 with messages := mupd c7s2.messages "default" (fun l => l ++ [m]),
                    nextId := c7s2.nextId + 1 } ∧
      (sendMessageHandler c7s2 1 "hi" none).2 = [Out.toRoom "default" (Payload.msg m)] :=
  C7_send_defaults_to_fixed_room c7s2 1 "hi"
    ⟨0, "alice", 1, 0, "10.0.0.1", false, "team"⟩ (by decide) (by decide) (by decide)

/-- C8 counterexample: socket 1 is already Joined (bound to alice), yet a
second `join` with username `"bob"` is not rejected: no error is emitted
and the session binding is overwritten to the new user — refuting "valid
only from Connected; rejected and bindings unchanged from Joined". -/
theorem C8_counterexample :
    (mget c8s2.users 1).map User.username = some "alice" ∧
    (mget (joinHandler c8s2 1 "bob" none).1.users 1).map User.username = some "bob" ∧
    ((joinHandler c8s2 1 "bob" none).2.all
      (fun o => match o with
        | Out.toSocket _ (Payload.errMsg _) => false
        | _ => true)) = true := by
  decide

/-- C8 (amended): the `join` handler performs no connection-state check: a
join with a valid username from a connection that ALREADY has a bound user
succeeds all the same, overwriting the session binding with a freshly
generated user record (the only validation is the username length), and
emits no error to the sender. -/
theorem C8_join_rebinds (s : ServerState) (sid : Nat) (username : String)
    (roomIdOpt : Option String) (ip : String) (oldUser : User)
    (hsock : mget s.sockets sid = some ip)
    (_hbound : mget s.users sid = some oldUser)
    (hlen : ¬(username.length < 2 ∨ username.length > 20)) :
    mget (joinHandler s sid username roomIdOpt).1.users sid =
      some ⟨s.nextId, username, sid, s.now, ip, decide (ip ∈ s.mutedIPs),
        roomIdOpt.getD "default"⟩ ∧
    (∀ e, Out.toSocket sid (Payload.errMsg e) ∉ (joinHandler s sid username roomIdOpt).2) := by
  obtain ⟨room2, hroom2⟩ := createRoom_mget_self
    { s with users := mset s.users sid (User.mk s.nextId username sid s.now ip (decide (ip ∈ s.mutedIPs)) (roomIdOpt.getD "default")), nextId := s.nextId + 1 }
    (roomIdOpt.getD "default")
    (if roomIdOpt.getD "default" = "default" then "公共聊天室"
     else roomIdOpt.getD "default")
  constructor
  · simp only [joinHandler, hsock, if_neg hlen, hroom2]
    rw [createRoom_users]
    exact mget_mset_self _ _ _
  · intro e he
    simp only [joinHandler, hsock, if_neg hlen, hroom2] at he
    simp only [List.mem_append, List.mem_cons, List.mem_singleton] at he
    rcases he with ((he | he) | he) | he
    · by_cases hmu : decide (ip ∈ s.mutedIPs) = true
      · rw [if_pos hmu] at he
        simp at he
      · rw [if_neg hmu] at he
        simp at he
    · rcases he with he | he | he <;> simp at he
    · obtain ⟨pl, hpl⟩ := updateUserList_shape _ _ _ he
      simp at hpl
    · simp at he

/-- C8 witness: the rebinding behaviour at the concrete state where alice
is already joined and `"bob"` joins on the same socket. -/
theorem C8_join_rebinds_witness :
    mget (joinHandler c8s2 1 "bob" none).1.users 1 =
      some ⟨c8s2.nextId, "bob", 1, c8s2.now, "10.0.0.1",
        decide ("10.0.0.1" ∈ c8s2.mutedIPs), "default"⟩ ∧
    (∀ e, Out.toSocket 1 (Payload.errMsg e) ∉ (joinHandler c8s2 1 "bob" none).2) :=
  C8_join_rebinds c8s2 1 "bob" none "10.0.0.1"
    ⟨0, "alice", 1, 0, "10.0.0.1", false, "default"⟩
    (by decide) (by decide) (by decide)

end LanTalk
